import Mathlib

/-!
Verification development for the Band Practice Pro repository (webapp_v3
generation).  The Firestore-backed services are shallowly embedded: a
Firestore collection becomes a list of document structures, `datetime.utcnow()`
becomes an explicit `now : Nat` argument, auto-generated document ids become a
`nextId : Nat` counter, and the external HTTP world (Spotify, Genius,
GetSongBPM) becomes explicit function arguments describing the fetched data.
All definitions are translated from the Python sources in src/webapp_v3 (and,
where the claims cite them, src/webapp_v2).
-/

namespace BandPractice

/-- Insertion-order association update, mirroring a Python dict assignment
`d[k] = v`: if the key is present its value is replaced in place, otherwise the
pair is appended at the end. -/
def dictInsert {α : Type} (m : List (String × α)) (k : String) (v : α) :
    List (String × α) :=
  if m.any (fun p => p.1 == k) then
    m.map (fun p => if p.1 == k then (k, v) else p)
  else
    m ++ [(k, v)]

/-- Association-list lookup (first match), mirroring a Python dict read. -/
def alookup {α : Type} (m : List (String × α)) (k : String) : Option α :=
  (m.find? (fun p => p.1 == k)).map (fun p => p.2)

/-- Association-list key-membership, mirroring Python `k in d`. -/
def dictHasKey {α : Type} (m : List (String × α)) (k : String) : Bool :=
  m.any (fun p => p.1 == k)

/-- A song document of the `songs_v3` Firestore collection, with the fields
written by `SongsService` (songs_service_v3.py), `LyricsServiceV3`
(lyrics_service_v3.py) and the song PUT endpoint (app.py).  Timestamps are
modelled as naturals; fields that the code stores as `None` become `Option`. -/
structure SongDoc where
  id : String
  collection_id : String
  title : String
  artist : String
  album : String
  year : String
  album_art_url : String
  spotify_track_id : String
  spotify_uri : String
  spotify_url : String
  duration_ms : Nat
  lyrics : String
  lyrics_numbered : String
  lyrics_fetched : Bool
  is_customized : Bool
  bpm : String
  notes : String
  source_playlist_ids : List String
  playlist_positions : List (String × Nat)
  is_orphaned : Bool
  orphaned_at : Option Nat
  lyrics_fetch_error : Option String
  lyrics_fetched_at : Option Nat
  custom_lyrics : Bool
  created_at : Nat
  updated_at : Nat
  created_by_uid : String
  deriving Repr, DecidableEq

/-- Track metadata as delivered by `SpotifyServiceV3.get_playlist_tracks`.
A missing `spotify_track_id` (Python `None` or `''`, both falsy) is modelled
as the empty string. -/
structure TrackData where
  title : String
  artist : String
  album : String
  year : String
  album_art_url : String
  spotify_track_id : String
  spotify_uri : String
  spotify_url : String
  duration_ms : Nat
  deriving Repr, DecidableEq

/-- An element of the `tracks_data` argument of
`SongsService.batch_create_or_update_songs`: track metadata plus playlist
position. -/
structure TrackInfo where
  track : TrackData
  position : Nat
  deriving Repr, DecidableEq

/-- Auto-generated Firestore document id, modelled as a counter rendered to a
string. -/
def freshId (n : Nat) : String :=
  "doc" ++ toString n

/-- The new-song document literal shared verbatim by the create branches of
`batch_create_or_update_songs` and `create_or_update_song`
(songs_service_v3.py). -/
def newSongDoc (cid : String) (t : TrackData) (pid : String) (pos : Nat)
    (uid : String) (now : Nat) (docId : String) : SongDoc :=
  { id := docId
    collection_id := cid
    title := t.title
    artist := t.artist
    album := t.album
    year := t.year
    album_art_url := t.album_art_url
    spotify_track_id := t.spotify_track_id
    spotify_uri := t.spotify_uri
    spotify_url := t.spotify_url
    duration_ms := t.duration_ms
    lyrics := ""
    lyrics_numbered := ""
    lyrics_fetched := false
    is_customized := false
    bpm := "N/A"
    notes := ""
    source_playlist_ids := [pid]
    playlist_positions := [(pid, pos)]
    is_orphaned := false
    orphaned_at := none
    lyrics_fetch_error := none
    lyrics_fetched_at := none
    custom_lyrics := false
    created_at := now
    updated_at := now
    created_by_uid := uid }

/-- State threaded through `batch_create_or_update_songs`: the evolving
database, the `existing_songs` dict computed once at the start of the call
(whose stored song snapshots are mutated in place by the Python update
branch), the fresh-id counter and the created/updated counters. -/
structure BatchState where
  db : List SongDoc
  existing : List (String × String × SongDoc)
  nextId : Nat
  created : Nat
  updated : Nat
  deriving Repr

/-- The `existing_songs` dict comprehension of
`batch_create_or_update_songs`: one query for all songs of the collection,
keyed by `spotify_track_id` (a later stream element overwrites an earlier one
with the same key, as in a Python dict comprehension). -/
def buildExisting (db : List SongDoc) (cid : String) :
    List (String × String × SongDoc) :=
  (db.filter (fun s => s.collection_id == cid)).foldl
    (fun m s => dictInsert m s.spotify_track_id (s.id, s)) []

/-- Loop body of `batch_create_or_update_songs` for one element of
`tracks_data`.  Tracks without a `spotify_track_id` are skipped; a track whose
id is a key of the (stale) `existing_songs` dict updates that document's
playlist-tracking fields (also mutating the dict's stored snapshot, as the
Python list/dict mutations do); otherwise a fresh document is created.  Batch
commits are flushes of already-decided writes, so they are modelled as
immediate writes. -/
def batchStep (cid pid uid : String) (now : Nat) (st : BatchState)
    (ti : TrackInfo) : BatchState :=
  let tid := ti.track.spotify_track_id
  if tid == "" then st
  else
    match alookup st.existing tid with
    | some (sid, sdata) =>
      let sp0 := sdata.source_playlist_ids
      let sp := if sp0.contains pid then sp0 else sp0 ++ [pid]
      let pp := dictInsert sdata.playlist_positions pid ti.position
      { st with
        db := st.db.map (fun s =>
          if s.id == sid then
            { s with source_playlist_ids := sp, playlist_positions := pp,
                     updated_at := now }
          else s)
        existing := dictInsert st.existing tid
          (sid, { sdata with source_playlist_ids := sp,
                             playlist_positions := pp })
        updated := st.updated + 1 }
    | none =>
      { st with
        db := st.db ++ [newSongDoc cid ti.track pid ti.position uid now
          (freshId st.nextId)]
        nextId := st.nextId + 1
        created := st.created + 1 }

/-- `SongsService.batch_create_or_update_songs` (songs_service_v3.py): query
the collection's songs once into a dict, then fold the batch loop over the
track list. -/
def batchCreateOrUpdateSongs (db : List SongDoc) (nextId : Nat)
    (cid pid : String) (tracks : List TrackInfo) (uid : String) (now : Nat) :
    BatchState :=
  tracks.foldl (batchStep cid pid uid now)
    { db := db, existing := buildExisting db cid, nextId := nextId,
      created := 0, updated := 0 }

/-- `SongsService.create_or_update_song` (songs_service_v3.py): the
single-song variant, which re-queries Firestore (limit 1) for each call.
Raising `ValueError` on a missing track id becomes `Except.error`.  The result
carries the song document id, the new database and the new id counter. -/
def createOrUpdateSong (db : List SongDoc) (nextId : Nat) (cid pid : String)
    (track : TrackData) (pos : Nat) (uid : String) (now : Nat) :
    Except String (String × List SongDoc × Nat) :=
  let tid := track.spotify_track_id
  if tid == "" then .error "Missing spotify_track_id in track_data"
  else
    match (db.filter (fun s =>
        s.collection_id == cid && s.spotify_track_id == tid)).head? with
    | some sdoc =>
      let sp0 := sdoc.source_playlist_ids
      let sp := if sp0.contains pid then sp0 else sp0 ++ [pid]
      let pp := dictInsert sdoc.playlist_positions pid pos
      .ok (sdoc.id,
        db.map (fun s =>
          if s.id == sdoc.id then
            { s with source_playlist_ids := sp, playlist_positions := pp,
                     updated_at := now }
          else s),
        nextId)
    | none =>
      .ok (freshId nextId,
        db ++ [newSongDoc cid track pid pos uid now (freshId nextId)],
        nextId + 1)

/-- `SongsService.remove_playlist_from_song` (songs_service_v3.py): drop one
playlist reference from a song; if no references remain the document is
deleted outright.  Returns `true` exactly when the song was deleted. -/
def removePlaylistFromSong (db : List SongDoc) (songId pid : String)
    (now : Nat) : Bool × List SongDoc :=
  match db.find? (fun s => s.id == songId) with
  | none => (false, db)
  | some sdata =>
    let sp := sdata.source_playlist_ids.erase pid
    let pp := sdata.playlist_positions.filter (fun p => p.1 != pid)
    if sp.isEmpty then
      (true, db.filter (fun s => s.id != songId))
    else
      (false, db.map (fun s =>
        if s.id == songId then
          { s with source_playlist_ids := sp, playlist_positions := pp,
                   updated_at := now }
        else s))

/-! ## Lyrics service (lyrics_service_v3.py) -/

/-- Characters stripped by Python `str.strip()` (ASCII whitespace). -/
def isPySpace (c : Char) : Bool :=
  c == ' ' || c == '\t' || c == '\n' || c == '\x0d' ||
  c == '\x0b' || c == '\x0c'

/-- Python `str.strip()`. -/
def pyStrip (s : String) : String :=
  String.mk (((s.data.dropWhile isPySpace).reverse.dropWhile isPySpace).reverse)

/-- The section-header test `re.match(r'^\[.*\]', line.strip())`: the stripped
line starts with an opening bracket and a closing bracket occurs somewhere
after it. -/
def isSectionHeader (line : String) : Bool :=
  match (pyStrip line).data with
  | [] => false
  | c :: rest => c == '[' && rest.contains ']'

/-- The Python format `f'{line_num:3d}'`: the decimal rendering right-aligned
in a field of width three. -/
def numFmt (n : Nat) : String :=
  let s := toString n
  String.mk (List.replicate (3 - s.length) ' ') ++ s

/-- Helper for `splitLines`: accumulate the current line (reversed) while
walking the character list. -/
def splitLinesAux : List Char → List Char → List String
  | [], acc => [String.mk acc.reverse]
  | c :: cs, acc =>
    if c == '\n' then String.mk acc.reverse :: splitLinesAux cs []
    else splitLinesAux cs (c :: acc)

/-- Python `lyrics.split('\n')`: split on every newline, keeping empty
segments (so the empty string yields one empty line). -/
def splitLines (s : String) : List String :=
  splitLinesAux s.data []

/-- Loop body of `_add_line_numbers`: the accumulator holds the formatted
lines so far and the running line number. -/
def addLineStep (acc : List String × Nat) (line : String) :
    List String × Nat :=
  if isSectionHeader line then
    (acc.1 ++ ["\n" ++ pyStrip line], acc.2)
  else if !(pyStrip line).isEmpty then
    (acc.1 ++ [numFmt acc.2 ++ "  " ++ line], acc.2 + 1)
  else
    (acc.1 ++ [""], acc.2)

/-- `LyricsServiceV3._add_line_numbers`: split on newlines, keep section
headers (stripped, preceded by a blank line), number non-blank lines with a
running counter starting at 1, keep blank lines blank, and rejoin. -/
def addLineNumbers (lyrics : String) : String :=
  let lines := splitLines lyrics
  let res := lines.foldl addLineStep ([], 1)
  String.intercalate "\n" res.1

/-- `LyricsServiceV3.renumber_lyrics`, a public wrapper around
`_add_line_numbers`. -/
def renumberLyrics (lyrics : String) : String :=
  addLineNumbers lyrics

/-- Keep a string up to and including its last newline (empty if it has
none).  Used to model the span removed by the non-greedy, non-newline
matching regex below. -/
def keepThroughLastNewline (p : String) : String :=
  String.mk ((p.data.reverse.dropWhile (fun c => c != '\n')).reverse)

/-- The cleanup `re.sub(r'.*?Lyrics', '', lyrics, count=1)`: since `.` does
not match a newline, the leftmost match removes from the start of the line
containing the first occurrence of "Lyrics" through that occurrence. -/
def removeFirstLyricsHeader (s : String) : String :=
  match s.splitOn "Lyrics" with
  | [] => s
  | [_] => s
  | p0 :: rest =>
    keepThroughLastNewline p0 ++ String.intercalate "Lyrics" rest

/-- The cleanup `re.sub(r'\d+Embed$', '', lyrics)`: strip a maximal non-empty
run of digits followed by "Embed" at the end of the string (or immediately
before a final newline, which `$` also matches). -/
def removeTrailingEmbed (s : String) : String :=
  let core := fun (t : String) =>
    if t.endsWith "Embed" then
      let u := t.dropRight 5
      if (u.data.reverse.takeWhile Char.isDigit).isEmpty then t
      else String.mk ((u.data.reverse.dropWhile Char.isDigit).reverse)
    else t
  if s.endsWith "\n" then core (s.dropRight 1) ++ "\n" else core s

/-- The cleanup block of `fetch_lyrics`: remove the "XXXLyrics" header line
span, the "XXEmbed" footer, every "You might also like" occurrence, then
strip. -/
def cleanupScrapedLyrics (s : String) : String :=
  pyStrip ((removeTrailingEmbed (removeFirstLyricsHeader s)).replace
    "You might also like" "")

/-- The dict returned by `LyricsServiceV3.fetch_lyrics`. -/
structure LyricsResult where
  lyrics : String
  lyrics_numbered : String
  error : Option String
  deriving Repr, DecidableEq

/-- One hit of a Genius search response (`response.hits[i].result`). -/
structure GeniusHit where
  url : String
  title : String
  artist : String
  deriving Repr, DecidableEq

/-- The external world as seen by `fetch_lyrics`: the outcome of the Genius
search (`none` models `_search_genius` returning `None` after a request
error) and the outcome of scraping each page url (`none` models
`_scrape_lyrics_from_page` returning `None` after a request/parsing
failure). -/
structure GeniusEnv where
  searchResult : Option (List GeniusHit)
  scrape : String → Option String

/-- `LyricsServiceV3.fetch_lyrics`: search Genius, scrape the first hit's
page, clean up and number the text.  Every failure path returns a result dict
with empty lyric fields and an error code instead of propagating the
failure. -/
def fetchLyrics (env : GeniusEnv) (title artist : String) : LyricsResult :=
  match env.searchResult with
  | none => { lyrics := "", lyrics_numbered := "", error := some "NOT_FOUND" }
  | some [] => { lyrics := "", lyrics_numbered := "", error := some "NOT_FOUND" }
  | some (hit :: _) =>
    match env.scrape hit.url with
    | none =>
      { lyrics := "", lyrics_numbered := "", error := some "SCRAPE_FAILED" }
    | some raw =>
      let ly := cleanupScrapedLyrics raw
      { lyrics := ly, lyrics_numbered := addLineNumbers ly, error := none }

/-- `LyricsServiceV3.fetch_and_update_song_lyrics`: guard chain (missing
song, customized without override, already fetched without force, missing
title/artist) and then the Firestore update.  Returns the boolean result and
the new database. -/
def fetchAndUpdateSongLyrics (db : List SongDoc) (env : GeniusEnv)
    (songId : String) (force force_customized : Bool) (now : Nat) :
    Bool × List SongDoc :=
  match db.find? (fun s => s.id == songId) with
  | none => (false, db)
  | some sdata =>
    if sdata.is_customized && !force_customized then (false, db)
    else if sdata.lyrics_fetched && !force then (true, db)
    else if sdata.title == "" || sdata.artist == "" then (false, db)
    else
      let ld := fetchLyrics env sdata.title sdata.artist
      (true, db.map (fun s =>
        if s.id == songId then
          let s1 := { s with lyrics := ld.lyrics,
                             lyrics_numbered := ld.lyrics_numbered,
                             lyrics_fetched := true,
                             lyrics_fetch_error := ld.error,
                             lyrics_fetched_at := some now,
                             updated_at := now }
          if force_customized then { s1 with is_customized := false } else s1
        else s))

/-- Loop body of `batch_fetch_lyrics_for_collection`: skip customized songs,
otherwise fetch and update by document id (default flags). -/
def batchFetchStep (env : GeniusEnv) (now : Nat) (cur : List SongDoc)
    (d : SongDoc) : List SongDoc :=
  if d.is_customized then cur
  else (fetchAndUpdateSongLyrics cur env d.id false false now).2

/-- `LyricsServiceV3.batch_fetch_lyrics_for_collection` with `max_songs`
unset: snapshot the unfetched songs of the collection, then fetch each one,
skipping customized songs. -/
def batchFetchLyricsForCollection (db : List SongDoc) (env : GeniusEnv)
    (cid : String) (now : Nat) : List SongDoc :=
  let unfetched := db.filter (fun s =>
    s.collection_id == cid && s.lyrics_fetched == false)
  unfetched.foldl (batchFetchStep env now) db

/-! ## Collections service (collections_service_v3.py) -/

/-- A collection document of `collections_v3`.  Linked playlists are reduced
to their `playlist_id` entries, the only part the embedded operations read. -/
structure CollectionDoc where
  id : String
  owner_uid : String
  name : String
  description : String
  is_public : Bool
  is_personal : Bool
  collaborators : List String
  linked_playlists : List String
  song_count : Nat
  created_at : Nat
  updated_at : Nat
  deriving Repr, DecidableEq

/-- A Python exception raised by the collections service, as discriminated by
the route handler (`PermissionError` maps to 403 and `ValueError` to 400). -/
inductive PyError where
  | valueError (msg : String)
  | permissionError (msg : String)
  deriving Repr, DecidableEq

/-- The `updates` dict of `CollectionsService.update_collection`: `some`
models key presence. `is_personal` is never applied (it is outside
`allowed_fields`) but its presence is checked by the personal-collection
guard. -/
structure CollectionUpdates where
  name : Option String
  description : Option String
  is_public : Option Bool
  collaborators : Option (List String)
  is_personal : Option Bool
  deriving Repr, DecidableEq

/-- `CollectionsService.check_user_access_level`. -/
def checkUserAccessLevel (colls : List CollectionDoc) (cid uid : String) :
    String :=
  match colls.find? (fun c => c.id == cid) with
  | none => "none"
  | some c =>
    if c.owner_uid == uid then "owner"
    else if c.collaborators.contains uid then "collaborator"
    else if c.is_public then "viewer"
    else "none"

/-- `CollectionsService.get_collection`: the document, or `none` when it does
not exist or the user is neither owner nor collaborator nor a public
viewer. -/
def getCollection (colls : List CollectionDoc) (cid uid : String) :
    Option CollectionDoc :=
  match colls.find? (fun c => c.id == cid) with
  | none => none
  | some c =>
    if c.owner_uid == uid || c.collaborators.contains uid || c.is_public then
      some c
    else none

/-- `CollectionsService.update_collection`: owner check, personal-collection
guard, then application of the allowed fields.  On success returns the
updated document and database. -/
def updateCollection (colls : List CollectionDoc) (cid uid : String)
    (u : CollectionUpdates) (now : Nat) :
    Except PyError (CollectionDoc × List CollectionDoc) :=
  match colls.find? (fun c => c.id == cid) with
  | none => .error (.valueError ("Collection not found: " ++ cid))
  | some c =>
    if c.owner_uid != uid then
      .error (.permissionError "Only owner can update collection")
    else if c.is_personal && (u.name.isSome || u.is_personal.isSome) then
      .error (.valueError "Cannot rename or modify Personal Collection")
    else
      let c' := { c with
        name := u.name.getD c.name
        description := u.description.getD c.description
        is_public := u.is_public.getD c.is_public
        collaborators := u.collaborators.getD c.collaborators
        updated_at := now }
      .ok (c', colls.map (fun x => if x.id == cid then c' else x))

/-- `CollectionsService.delete_collection`: owner check, personal-collection
guard, then deletion of the collection's songs and of the collection
document.  On success returns the new collections, the new songs and the
deleted-song count. -/
def deleteCollection (colls : List CollectionDoc) (songs : List SongDoc)
    (cid uid : String) :
    Except PyError (List CollectionDoc × List SongDoc × Nat) :=
  match colls.find? (fun c => c.id == cid) with
  | none => .error (.valueError ("Collection not found: " ++ cid))
  | some c =>
    if c.owner_uid != uid then
      .error (.permissionError "Only owner can delete collection")
    else if c.is_personal then
      .error (.valueError "Cannot delete Personal Collection")
    else
      let deleted := (songs.filter (fun s => s.collection_id == cid)).length
      .ok (colls.filter (fun x => x.id != cid),
           songs.filter (fun s => s.collection_id != cid),
           deleted)

/-- The PUT branch of the `collection` route (app.py): `PermissionError`
becomes 403 and `ValueError` 400, each leaving the database unchanged. -/
def collectionEndpointPut (colls : List CollectionDoc) (cid uid : String)
    (u : CollectionUpdates) (now : Nat) : Nat × List CollectionDoc :=
  match updateCollection colls cid uid u now with
  | .ok r => (200, r.2)
  | .error (.permissionError _) => (403, colls)
  | .error (.valueError _) => (400, colls)

/-- The DELETE branch of the `collection` route (app.py). -/
def collectionEndpointDelete (colls : List CollectionDoc)
    (songs : List SongDoc) (cid uid : String) :
    Nat × List CollectionDoc × List SongDoc :=
  match deleteCollection colls songs cid uid with
  | .ok r => (200, r.1, r.2.1)
  | .error (.permissionError _) => (403, colls, songs)
  | .error (.valueError _) => (400, colls, songs)

/-! ## Playlist sync (app.py, `sync_playlists`) -/

/-- State threaded through the per-playlist loop of `sync_playlists`: the
songs database, the id counter, the added/updated counters and the
`current_track_ids_in_playlists` set (modelled as a list; only membership is
ever queried). -/
structure SyncState where
  db : List SongDoc
  nextId : Nat
  added : Nat
  updated : Nat
  trackIds : List String
  deriving Repr

/-- One iteration of the playlist loop of `sync_playlists`: skip entries
without a playlist id, fetch the playlist's tracks (the `fetch` argument
stands for `SpotifyServiceV3.get_playlist_tracks`), enumerate them into
positions, extend the current-track-id set, and run the batch import. -/
def syncOnePlaylist (cid uid : String) (fetch : String → List TrackData)
    (now : Nat) (st : SyncState) (pid : String) : SyncState :=
  if pid == "" then st
  else
    let tracks := fetch pid
    let withPos := tracks.enum.map (fun p => TrackInfo.mk p.2 p.1)
    let tids := st.trackIds ++
      (tracks.map (fun t => t.spotify_track_id)).filter (fun t => t != "")
    let b := batchCreateOrUpdateSongs st.db st.nextId cid pid withPos uid now
    { db := b.db, nextId := b.nextId, added := st.added + b.created,
      updated := st.updated + b.updated, trackIds := tids }

/-- The orphan pass of `sync_playlists` applied to one song document: songs
of the collection that carry a track id are marked orphaned when the id is
absent from the current set and unmarked when present; other documents are
left alone. -/
def orphanPassDoc (cid : String) (current : List String) (now : Nat)
    (s : SongDoc) : SongDoc :=
  if s.collection_id == cid && s.spotify_track_id != "" then
    if !current.contains s.spotify_track_id then
      if !s.is_orphaned then
        { s with is_orphaned := true, orphaned_at := some now }
      else s
    else
      if s.is_orphaned then
        { s with is_orphaned := false, orphaned_at := none }
      else s
  else s

/-- Result of `sync_playlists`: final databases and the response counters. -/
structure SyncResult where
  db : List SongDoc
  colls : List CollectionDoc
  nextId : Nat
  added : Nat
  updated : Nat
  orphaned : Nat
  trackIds : List String
  deriving Repr

/-- `sync_playlists` (app.py), after its access checks: early return when the
collection has no linked playlists; otherwise sync every linked playlist,
run the orphan pass over the collection's songs, and refresh the collection's
`song_count` with the number of non-orphaned songs. -/
def syncPlaylists (db : List SongDoc) (colls : List CollectionDoc)
    (nextId : Nat) (cid : String) (linked : List String)
    (fetch : String → List TrackData) (uid : String) (now : Nat) :
    SyncResult :=
  if linked.isEmpty then
    { db := db, colls := colls, nextId := nextId, added := 0, updated := 0,
      orphaned := 0, trackIds := [] }
  else
    let st := linked.foldl (syncOnePlaylist cid uid fetch now)
      { db := db, nextId := nextId, added := 0, updated := 0, trackIds := [] }
    let orphanedCount := (st.db.filter (fun s =>
      s.collection_id == cid && s.spotify_track_id != "" &&
      !st.trackIds.contains s.spotify_track_id && !s.is_orphaned)).length
    let db2 := st.db.map (orphanPassDoc cid st.trackIds now)
    let nonOrphaned := (db2.filter (fun s =>
      s.collection_id == cid && !s.is_orphaned)).length
    let colls2 := colls.map (fun c =>
      if c.id == cid then
        { c with song_count := nonOrphaned, updated_at := now }
      else c)
    { db := db2, colls := colls2, nextId := st.nextId, added := st.added,
      updated := st.updated, orphaned := orphanedCount,
      trackIds := st.trackIds }

/-! ## Song endpoint (app.py, `song` route) -/

/-- HTTP method of the `song` route. -/
inductive HttpMethod where
  | get
  | put
  | delete
  deriving Repr, DecidableEq

/-- The JSON body of a song PUT: `some` models key presence among the
allowed fields `lyrics`, `custom_lyrics`, `notes`, `bpm`. -/
structure SongPutBody where
  lyrics : Option String
  custom_lyrics : Option Bool
  notes : Option String
  bpm : Option String
  deriving Repr, DecidableEq

/-- The field update applied by the PUT branch of the `song` route: the
present allowed fields are copied; a present `lyrics` field additionally
refreshes `lyrics_numbered` via `renumber_lyrics` (and a truthy
`custom_lyrics` remains set). -/
def applySongPut (b : SongPutBody) (s : SongDoc) : SongDoc :=
  { s with
    lyrics := b.lyrics.getD s.lyrics
    lyrics_numbered := match b.lyrics with
      | some l => renumberLyrics l
      | none => s.lyrics_numbered
    custom_lyrics := b.custom_lyrics.getD s.custom_lyrics
    notes := b.notes.getD s.notes
    bpm := b.bpm.getD s.bpm }

/-- The `song` route (app.py): look up the song, authorize against its
collection, then serve GET (read), DELETE (owner-only, orphaned-only,
removes the document and refreshes the collection's song count) or PUT
(owner/collaborator-only field update).  Returns the HTTP status and the
resulting song and collection databases. -/
def songEndpoint (songs : List SongDoc) (colls : List CollectionDoc)
    (songId uid : String) (method : HttpMethod) (body : SongPutBody)
    (now : Nat) : Nat × List SongDoc × List CollectionDoc :=
  match songs.find? (fun s => s.id == songId) with
  | none => (404, songs, colls)
  | some sdoc =>
    let cid := sdoc.collection_id
    match getCollection colls cid uid with
    | none => (403, songs, colls)
    | some _ =>
      match method with
      | .get => (200, songs, colls)
      | .delete =>
        let lvl := checkUserAccessLevel colls cid uid
        if lvl != "owner" then (403, songs, colls)
        else if !sdoc.is_orphaned then (400, songs, colls)
        else
          let songs' := songs.filter (fun s => s.id != songId)
          let cnt := (songs'.filter (fun s =>
            s.collection_id == cid && !s.is_orphaned)).length
          let colls' := colls.map (fun c =>
            if c.id == cid then
              { c with song_count := cnt, updated_at := now }
            else c)
          (200, songs', colls')
      | .put =>
        let lvl := checkUserAccessLevel colls cid uid
        if lvl != "owner" && lvl != "collaborator" then (403, songs, colls)
        else if body.lyrics.isSome || body.custom_lyrics.isSome ||
            body.notes.isSome || body.bpm.isSome then
          (200, songs.map (fun s =>
            if s.id == songId then applySongPut body s else s), colls)
        else (400, songs, colls)

/-! ## Playlist memory (playlist_service_v3.py) -/

/-- A `playlist_memory_v3` document; the Firestore store is modelled as an
association list keyed by the Spotify playlist id (the document id used by
`save_playlist_memory`). -/
structure MemoryDoc where
  user_uid : String
  playlist_url : String
  playlist_name : String
  playlist_owner : String
  track_count : Nat
  image_url : String
  last_accessed_at : Nat
  access_count : Nat
  deriving Repr, DecidableEq

/-- The `playlist_data` argument of `save_playlist_memory` (after the `.get`
defaults). -/
structure PlaylistData where
  playlist_url : String
  playlist_name : String
  playlist_owner : String
  track_count : Nat
  image_url : String
  deriving Repr, DecidableEq

/-- `PlaylistServiceV3.save_playlist_memory`: the document is keyed by the
playlist id alone; `access_count` continues from the stored document only
when the stored `user_uid` matches, and restarts at one otherwise. -/
def savePlaylistMemory (mem : List (String × MemoryDoc)) (uid pid : String)
    (pd : PlaylistData) (now : Nat) : List (String × MemoryDoc) :=
  let access_count :=
    match alookup mem pid with
    | some ex => if ex.user_uid == uid then ex.access_count + 1 else 1
    | none => 1
  dictInsert mem pid
    { user_uid := uid
      playlist_url := pd.playlist_url
      playlist_name := pd.playlist_name
      playlist_owner := pd.playlist_owner
      track_count := pd.track_count
      image_url := pd.image_url
      last_accessed_at := now
      access_count := access_count }

/-- Insertion step of a sort by descending `last_accessed_at`. -/
def insertDescByAccess (x : String × MemoryDoc) :
    List (String × MemoryDoc) → List (String × MemoryDoc)
  | [] => [x]
  | y :: ys =>
    if y.2.last_accessed_at ≤ x.2.last_accessed_at then x :: y :: ys
    else y :: insertDescByAccess x ys

/-- Sort by descending `last_accessed_at` (the Firestore
`order_by('last_accessed_at', DESCENDING)`). -/
def sortDescByAccess (l : List (String × MemoryDoc)) :
    List (String × MemoryDoc) :=
  l.foldr insertDescByAccess []

/-- `PlaylistServiceV3.get_recent_playlists`: the user's memory documents,
most recently accessed first, truncated to `limit`. -/
def getRecentPlaylists (mem : List (String × MemoryDoc)) (uid : String)
    (limit : Nat) : List (String × MemoryDoc) :=
  (sortDescByAccess (mem.filter (fun p => p.2.user_uid == uid))).take limit

/-! ## Line numbering: auxiliary characterization -/

/-- A content line: neither a bracketed section header nor blank. -/
def isContentLine (l : String) : Bool :=
  !isSectionHeader l && !(pyStrip l).isEmpty

/-- Recursive form of the `_add_line_numbers` loop, producing the formatted
lines from a starting counter. -/
def numberFrom : List String → Nat → List String
  | [], _ => []
  | l :: ls, n =>
    if isSectionHeader l then ("\n" ++ pyStrip l) :: numberFrom ls n
    else if !(pyStrip l).isEmpty then
      (numFmt n ++ "  " ++ l) :: numberFrom ls (n + 1)
    else "" :: numberFrom ls n

/-- Total line accessor (out-of-range positions read as blank). -/
def getLine : List String → Nat → String
  | [], _ => ""
  | l :: _, 0 => l
  | _ :: ls, i + 1 => getLine ls i

/-- Spec-side description of line numbering, following the claim's wording:
output line i keeps a bracketed section header un-numbered (stripped, with a
blank line before it), keeps a blank line blank, and numbers a content line
with `n` plus the number of content lines among the earlier lines. -/
def numberSpecFrom (lines : List String) (n : Nat) (i : Nat) : String :=
  let l := getLine lines i
  if isSectionHeader l then "\n" ++ pyStrip l
  else if !(pyStrip l).isEmpty then
    numFmt (((lines.take i).filter isContentLine).length + n) ++ "  " ++ l
  else ""

/-- Spec-side numbering of a whole line list, counting content lines from
one. -/
def specNumberedLines (lines : List String) : List String :=
  (List.range lines.length).map (numberSpecFrom lines 1)

theorem addLineNumbers_foldl_eq (lines : List String) (fl : List String)
    (n : Nat) :
    (lines.foldl addLineStep (fl, n)).1 = fl ++ numberFrom lines n := by
  induction lines generalizing fl n with
  | nil => simp [numberFrom]
  | cons l ls ih =>
    rw [List.foldl_cons]
    by_cases h1 : isSectionHeader l = true
    · rw [show addLineStep (fl, n) l = (fl ++ ["\n" ++ pyStrip l], n) by
        simp [addLineStep, h1]]
      rw [ih]
      simp [numberFrom, h1]
    · by_cases h2 : (pyStrip l).isEmpty = true
      · rw [show addLineStep (fl, n) l = (fl ++ [""], n) by
          simp [addLineStep, h1, h2]]
        rw [ih]
        simp [numberFrom, h1, h2]
      · rw [show addLineStep (fl, n) l =
            (fl ++ [numFmt n ++ "  " ++ l], n + 1) by
          simp [addLineStep, h1, h2]]
        rw [ih]
        simp [numberFrom, h1, h2]

theorem numberFrom_eq_spec (lines : List String) (n : Nat) :
    numberFrom lines n =
      (List.range lines.length).map (numberSpecFrom lines n) := by
  induction lines generalizing n with
  | nil => simp [numberFrom]
  | cons l ls ih =>
    have hrange : List.range (ls.length + 1) =
        0 :: (List.range ls.length).map (· + 1) := by
      rw [List.range_succ_eq_map]
    have htail : ∀ i : Nat,
        numberSpecFrom (l :: ls) n (i + 1) =
          numberSpecFrom ls (n + if isContentLine l then 1 else 0) i := by
      intro i
      have hget : getLine (l :: ls) (i + 1) = getLine ls i := rfl
      by_cases hc : isContentLine l = true
      · rw [if_pos hc]
        simp only [numberSpecFrom]
        rw [hget, List.take_succ_cons, List.filter_cons,
          if_pos hc, List.length_cons]
        by_cases hh : isSectionHeader (getLine ls i) = true
        · rw [if_pos hh, if_pos hh]
        · rw [if_neg hh, if_neg hh]
          by_cases hb : (pyStrip (getLine ls i)).isEmpty = true
          · rw [if_neg (by simp [hb]), if_neg (by simp [hb])]
          · rw [if_pos (by simp [hb]), if_pos (by simp [hb])]
            generalize ((ls.take i).filter isContentLine).length = A
            have harith : A + 1 + n = A + (n + 1) := by omega
            rw [harith]
      · rw [if_neg hc]
        simp only [numberSpecFrom]
        rw [hget, List.take_succ_cons, List.filter_cons, if_neg hc]
        simp
    have htailgoal : ∀ hc : isContentLine l = false, ∀ n' : Nat,
        n + (if isContentLine l then 1 else 0) = n' →
        (List.range ls.length).map (numberSpecFrom ls n') =
          (List.range ls.length).map
            (numberSpecFrom (l :: ls) n ∘ (· + 1)) := by
      intro hc n' hn
      apply List.map_congr_left
      intro i _
      rw [Function.comp_apply, htail i, hn]
    by_cases h1 : isSectionHeader l = true
    · have hc : isContentLine l = false := by
        simp [isContentLine, h1]
      rw [show numberFrom (l :: ls) n =
          ("\n" ++ pyStrip l) :: numberFrom ls n by simp [numberFrom, h1]]
      rw [List.length_cons, hrange, List.map_cons, List.map_map, ih]
      rw [List.cons.injEq]
      refine ⟨by simp [numberSpecFrom, getLine, h1], ?_⟩
      exact htailgoal hc n (by simp [hc])
    · by_cases h2 : (pyStrip l).isEmpty = true
      · have hc : isContentLine l = false := by
          simp [isContentLine, h2]
        rw [show numberFrom (l :: ls) n = "" :: numberFrom ls n by
          simp [numberFrom, h1, h2]]
        rw [List.length_cons, hrange, List.map_cons, List.map_map, ih]
        rw [List.cons.injEq]
        refine ⟨by simp [numberSpecFrom, getLine, h1, h2], ?_⟩
        exact htailgoal hc n (by simp [hc])
      · have hc : isContentLine l = true := by
          simp [isContentLine, h1, h2]
        rw [show numberFrom (l :: ls) n =
            (numFmt n ++ "  " ++ l) :: numberFrom ls (n + 1) by
          simp [numberFrom, h1, h2]]
        rw [List.length_cons, hrange, List.map_cons, List.map_map, ih]
        rw [List.cons.injEq]
        refine ⟨by simp [numberSpecFrom, getLine, h1, h2], ?_⟩
        apply List.map_congr_left
        intro i _
        rw [Function.comp_apply, htail i, hc]
        simp

/-- C8 (counterexample): `renumber_lyrics` is not idempotent — re-applying it
to its own output numbers the already-numbered line again. -/
theorem renumber_lyrics_not_idempotent :
    renumberLyrics (renumberLyrics "hello") ≠ renumberLyrics "hello" := by
  decide

/-- C8 (amended): `renumber_lyrics` leaves bracketed section-header lines
un-numbered (stripped and preceded by a blank line), assigns consecutive
numbers starting at 1 to exactly the non-blank non-header lines (each content
line is numbered with one plus the count of content lines before it), and
leaves blank lines blank; it is not idempotent. -/
theorem renumber_lyrics_spec (s : String) :
    renumberLyrics s =
      String.intercalate "\n" (specNumberedLines (splitLines s)) := by
  show String.intercalate "\n"
      ((splitLines s).foldl addLineStep ([], 1)).1 =
    String.intercalate "\n" (specNumberedLines (splitLines s))
  rw [addLineNumbers_foldl_eq (splitLines s) [] 1, numberFrom_eq_spec]
  simp [specNumberedLines]

/-- C9: `fetch_lyrics` is total over every outcome of the external Genius
search and page scrape, and every failure path returns placeholder data (empty
lyric fields with an error code) instead of propagating the failure. -/
theorem fetch_lyrics_total_with_placeholders (env : GeniusEnv)
    (title artist : String) :
    (fetchLyrics env title artist).error = none ∨
    ((fetchLyrics env title artist).lyrics = "" ∧
     (fetchLyrics env title artist).lyrics_numbered = "" ∧
     ((fetchLyrics env title artist).error = some "NOT_FOUND" ∨
      (fetchLyrics env title artist).error = some "SCRAPE_FAILED")) := by
  unfold fetchLyrics
  rcases hsr : env.searchResult with _ | (_ | ⟨hit, hits⟩)
  · simp [hsr]
  · simp [hsr]
  · rcases hscr : env.scrape hit.url with _ | raw
    · simp [hsr, hscr]
    · simp [hsr, hscr]

/-! ## Access control -/

theorem getCollection_some_find (colls : List CollectionDoc)
    (cid uid : String) (c : CollectionDoc)
    (h : getCollection colls cid uid = some c) :
    colls.find? (fun x => x.id == cid) = some c := by
  unfold getCollection at h
  split at h
  next hf => exact absurd h (by simp)
  next c0 hf =>
    split at h
    next hb =>
      rw [hf]
      exact h
    next hb => exact absurd h (by simp)

theorem checkUserAccessLevel_eq (colls : List CollectionDoc)
    (cid uid : String) (c : CollectionDoc)
    (hf : colls.find? (fun x => x.id == cid) = some c) :
    checkUserAccessLevel colls cid uid =
      if c.owner_uid == uid then "owner"
      else if c.collaborators.contains uid then "collaborator"
      else if c.is_public then "viewer" else "none" := by
  unfold checkUserAccessLevel
  rw [hf]

/-- C5: an authenticated PUT or DELETE on a song by a user whose access level
for the song's collection is neither owner nor collaborator returns HTTP 403
and changes neither the songs nor the collections database. -/
theorem song_mutation_requires_editor_access
    (songs : List SongDoc) (colls : List CollectionDoc)
    (songId uid : String) (method : HttpMethod) (body : SongPutBody)
    (now : Nat) (sdoc : SongDoc)
    (hfind : songs.find? (fun s => s.id == songId) = some sdoc)
    (hmut : method = .put ∨ method = .delete)
    (hlvl1 : checkUserAccessLevel colls sdoc.collection_id uid ≠ "owner")
    (hlvl2 : checkUserAccessLevel colls sdoc.collection_id uid ≠
      "collaborator") :
    (songEndpoint songs colls songId uid method body now).1 = 403 ∧
    (songEndpoint songs colls songId uid method body now).2.1 = songs ∧
    (songEndpoint songs colls songId uid method body now).2.2 = colls := by
  unfold songEndpoint
  rw [hfind]
  rcases hg : getCollection colls sdoc.collection_id uid with _ | c
  · simp [hg]
  · have hfind2 : colls.find? (fun x => x.id == sdoc.collection_id) =
        some c := getCollection_some_find _ _ _ _ hg
    have hacc := checkUserAccessLevel_eq colls sdoc.collection_id uid c hfind2
    have howner : (c.owner_uid == uid) = false := by
      by_contra hcon
      rw [Bool.not_eq_false] at hcon
      apply hlvl1
      rw [hacc, if_pos hcon]
    have hcollab : c.collaborators.contains uid = false := by
      by_contra hcon
      rw [Bool.not_eq_false] at hcon
      apply hlvl2
      rw [hacc, if_neg (by simp [howner]), if_pos hcon]
    have hlvl : checkUserAccessLevel colls sdoc.collection_id uid =
        if c.is_public then "viewer" else "none" := by
      rw [hacc, if_neg (by simp [howner]), if_neg (by simpa using hcollab)]
    rcases hmut with hm | hm <;> subst hm
    · simp only [hg]
      rw [hlvl]
      rcases hp : c.is_public <;> simp
    · simp only [hg]
      rw [hlvl]
      rcases hp : c.is_public <;> simp

/-- A sample song document used by concrete witnesses. -/
def wSong1 : SongDoc :=
  { id := "s1"
    collection_id := "c1"
    title := "T"
    artist := "A"
    album := ""
    year := ""
    album_art_url := ""
    spotify_track_id := "tr"
    spotify_uri := ""
    spotify_url := ""
    duration_ms := 0
    lyrics := ""
    lyrics_numbered := ""
    lyrics_fetched := false
    is_customized := false
    bpm := "N/A"
    notes := ""
    source_playlist_ids := ["p1"]
    playlist_positions := [("p1", 0)]
    is_orphaned := false
    orphaned_at := none
    lyrics_fetch_error := none
    lyrics_fetched_at := none
    custom_lyrics := false
    created_at := 0
    updated_at := 0
    created_by_uid := "alice" }

/-- A sample public collection owned by alice, used by concrete witnesses. -/
def wColl1 : CollectionDoc :=
  { id := "c1"
    owner_uid := "alice"
    name := "N"
    description := ""
    is_public := true
    is_personal := false
    collaborators := []
    linked_playlists := ["p1"]
    song_count := 1
    created_at := 0
    updated_at := 0 }

/-- A sample personal collection owned by alice, used by concrete
witnesses. -/
def wPersonal : CollectionDoc :=
  { id := "c1"
    owner_uid := "alice"
    name := "Personal Collection"
    description := ""
    is_public := false
    is_personal := true
    collaborators := []
    linked_playlists := []
    song_count := 0
    created_at := 0
    updated_at := 0 }

/-- Witness for C5: a public collection owned by someone else; a visitor's
PUT is rejected with 403 and the song is untouched. -/
theorem song_mutation_requires_editor_access_witness :
    ([wSong1].find? (fun s => s.id == "s1") = some wSong1) ∧
    (songEndpoint [wSong1] [wColl1] "s1" "visitor" .put
      ⟨some "x", none, none, none⟩ 3).1 = 403 ∧
    (songEndpoint [wSong1] [wColl1] "s1" "visitor" .put
      ⟨some "x", none, none, none⟩ 3).2.1 = [wSong1] := by
  refine ⟨by decide, ?_, ?_⟩
  · exact (song_mutation_requires_editor_access [wSong1] [wColl1] "s1"
      "visitor" .put ⟨some "x", none, none, none⟩ 3 wSong1
      (by decide) (Or.inl rfl) (by decide) (by decide)).1
  · exact (song_mutation_requires_editor_access [wSong1] [wColl1] "s1"
      "visitor" .put ⟨some "x", none, none, none⟩ 3 wSong1
      (by decide) (Or.inl rfl) (by decide) (by decide)).2.1

/-- C6: for a personal collection, a PUT carrying a `name` or `is_personal`
key and any DELETE are rejected by the route (status 400 or 403, from the
service raising `ValueError` or `PermissionError`), leaving the collections
and songs databases unchanged. -/
theorem personal_collection_guard :
    (∀ (colls : List CollectionDoc) (cid uid : String)
       (u : CollectionUpdates) (now : Nat) (c : CollectionDoc),
       colls.find? (fun x => x.id == cid) = some c →
       c.is_personal = true →
       (u.name.isSome || u.is_personal.isSome) = true →
       ((collectionEndpointPut colls cid uid u now).1 = 400 ∨
        (collectionEndpointPut colls cid uid u now).1 = 403) ∧
       (collectionEndpointPut colls cid uid u now).2 = colls) ∧
    (∀ (colls : List CollectionDoc) (songs : List SongDoc)
       (cid uid : String) (c : CollectionDoc),
       colls.find? (fun x => x.id == cid) = some c →
       c.is_personal = true →
       ((collectionEndpointDelete colls songs cid uid).1 = 400 ∨
        (collectionEndpointDelete colls songs cid uid).1 = 403) ∧
       (collectionEndpointDelete colls songs cid uid).2.1 = colls ∧
       (collectionEndpointDelete colls songs cid uid).2.2 = songs) := by
  constructor
  · intro colls cid uid u now c hfind hpers hu
    unfold collectionEndpointPut updateCollection
    rw [hfind]
    by_cases how : (c.owner_uid != uid) = true
    · simp [how]
    · simp [how, hpers, hu]
  · intro colls songs cid uid c hfind hpers
    unfold collectionEndpointDelete deleteCollection
    rw [hfind]
    by_cases how : (c.owner_uid != uid) = true
    · simp [how]
    · simp [how, hpers]

/-- Witness for C6: renaming a personal collection is refused and the
database is unchanged. -/
theorem personal_collection_guard_witness :
    ([wPersonal].find? (fun x => x.id == "c1") = some wPersonal) ∧
    wPersonal.is_personal = true ∧
    ((collectionEndpointPut [wPersonal] "c1" "alice"
        ⟨some "NewName", none, none, none, none⟩ 7).1 = 400 ∨
     (collectionEndpointPut [wPersonal] "c1" "alice"
        ⟨some "NewName", none, none, none, none⟩ 7).1 = 403) ∧
    (collectionEndpointPut [wPersonal] "c1" "alice"
      ⟨some "NewName", none, none, none, none⟩ 7).2 = [wPersonal] := by
  have h := personal_collection_guard.1 [wPersonal] "c1" "alice"
    ⟨some "NewName", none, none, none, none⟩ 7 wPersonal
    (by decide) (by decide) (by decide)
  exact ⟨by decide, by decide, h.1, h.2⟩

/-! ## Playlist-memory lemmas -/

theorem alookup_map_replace {α : Type} (m : List (String × α)) (k : String)
    (v : α) :
    alookup (m.map (fun p => if p.1 == k then (k, v) else p)) k =
      if m.any (fun p => p.1 == k) then some v else none := by
  induction m with
  | nil => simp [alookup]
  | cons p ps ih =>
    by_cases hp : (p.1 == k) = true
    · simp only [List.map_cons, if_pos hp, List.any_cons, hp, Bool.true_or,
        if_true]
      simp [alookup]
    · simp only [List.map_cons, if_neg hp, List.any_cons]
      have hp' : (p.1 == k) = false := by
        rwa [Bool.not_eq_true] at hp
      simp only [hp', Bool.false_or]
      unfold alookup
      rw [List.find?_cons_of_neg _ (by simp [hp'])]
      exact ih

theorem alookup_append_single {α : Type} (m : List (String × α))
    (k : String) (v : α) (h : m.any (fun p => p.1 == k) = false) :
    alookup (m ++ [(k, v)]) k = some v := by
  induction m with
  | nil => simp [alookup]
  | cons p ps ih =>
    simp only [List.any_cons, Bool.or_eq_false_iff] at h
    unfold alookup
    rw [List.cons_append, List.find?_cons_of_neg _ (by simp [h.1])]
    exact ih h.2

theorem alookup_dictInsert_self {α : Type} (m : List (String × α))
    (k : String) (v : α) :
    alookup (dictInsert m k v) k = some v := by
  unfold dictInsert
  by_cases ha : m.any (fun p => p.1 == k) = true
  · rw [if_pos ha, alookup_map_replace, if_pos ha]
  · rw [if_neg ha]
    exact alookup_append_single m k v (by rwa [Bool.not_eq_true] at ha)

theorem mem_dictInsert_key {α : Type} (m : List (String × α)) (k : String)
    (v : α) (q : String × α) (hq : q ∈ dictInsert m k v) (hk : q.1 = k) :
    q = (k, v) := by
  unfold dictInsert at hq
  by_cases ha : m.any (fun p => p.1 == k) = true
  · rw [if_pos ha] at hq
    rcases List.mem_map.mp hq with ⟨p, _, hp⟩
    by_cases hpk : (p.1 == k) = true
    · rw [if_pos hpk] at hp
      exact hp.symm
    · rw [if_neg hpk] at hp
      subst hp
      exact absurd (by simp [hk]) hpk
  · rw [if_neg ha] at hq
    rcases List.mem_append.mp hq with hq1 | hq1
    · exfalso
      rw [Bool.not_eq_true] at ha
      have := List.any_eq_false.mp ha q hq1
      simp [hk] at this
    · simpa using hq1

theorem mem_insertDescByAccess (x y : String × MemoryDoc)
    (l : List (String × MemoryDoc)) :
    x ∈ insertDescByAccess y l ↔ x = y ∨ x ∈ l := by
  induction l with
  | nil => simp [insertDescByAccess]
  | cons z zs ih =>
    unfold insertDescByAccess
    by_cases hc : z.2.last_accessed_at ≤ y.2.last_accessed_at
    · rw [if_pos hc]
      simp
    · rw [if_neg hc]
      simp only [List.mem_cons, ih]
      tauto

theorem mem_sortDescByAccess (x : String × MemoryDoc)
    (l : List (String × MemoryDoc)) :
    x ∈ sortDescByAccess l ↔ x ∈ l := by
  induction l with
  | nil => simp [sortDescByAccess]
  | cons z zs ih =>
    unfold sortDescByAccess
    rw [List.foldr_cons, mem_insertDescByAccess]
    unfold sortDescByAccess at ih
    rw [ih]
    simp

/-- C10 (implicit): playlist memory is keyed by the Spotify playlist id
alone.  After user A saves memory for playlist P and then user B does, the
single document for P belongs to B with `access_count` reset to one, P no
longer appears in A's recent-playlist results, and `access_count` increments
only when the same user saves the same playlist again. -/
theorem playlist_memory_keyed_by_playlist_only
    (mem : List (String × MemoryDoc)) (pid uidA uidB : String)
    (pdA pdB : PlaylistData) (t1 t2 limit : Nat) (hne : uidA ≠ uidB) :
    (alookup (savePlaylistMemory (savePlaylistMemory mem uidA pid pdA t1)
        uidB pid pdB t2) pid =
      some { user_uid := uidB, playlist_url := pdB.playlist_url,
             playlist_name := pdB.playlist_name,
             playlist_owner := pdB.playlist_owner,
             track_count := pdB.track_count, image_url := pdB.image_url,
             last_accessed_at := t2, access_count := 1 }) ∧
    (∀ q ∈ getRecentPlaylists (savePlaylistMemory
        (savePlaylistMemory mem uidA pid pdA t1) uidB pid pdB t2) uidA limit,
      q.1 ≠ pid) ∧
    (∀ (m : List (String × MemoryDoc)) (uid pid' : String)
       (pd : PlaylistData) (t : Nat) (ex : MemoryDoc),
      alookup m pid' = some ex → ex.user_uid = uid →
      alookup (savePlaylistMemory m uid pid' pd t) pid' =
        some { user_uid := uid, playlist_url := pd.playlist_url,
               playlist_name := pd.playlist_name,
               playlist_owner := pd.playlist_owner,
               track_count := pd.track_count, image_url := pd.image_url,
               last_accessed_at := t, access_count := ex.access_count + 1 }) := by
  have hstep : ∀ (m : List (String × MemoryDoc)) (uid pid' : String)
      (pd : PlaylistData) (t : Nat),
      alookup (savePlaylistMemory m uid pid' pd t) pid' =
        some { user_uid := uid, playlist_url := pd.playlist_url,
               playlist_name := pd.playlist_name,
               playlist_owner := pd.playlist_owner,
               track_count := pd.track_count, image_url := pd.image_url,
               last_accessed_at := t,
               access_count := match alookup m pid' with
                 | some ex => if ex.user_uid == uid then ex.access_count + 1
                   else 1
                 | none => 1 } := by
    intro m uid pid' pd t
    exact alookup_dictInsert_self _ _ _
  refine ⟨?_, ?_, ?_⟩
  · rw [hstep, hstep]
    have hb : (uidA == uidB) = false := by simp [hne]
    simp [hb]
  · intro q hq hqk
    have hq1 : q ∈ sortDescByAccess (((savePlaylistMemory
        (savePlaylistMemory mem uidA pid pdA t1) uidB pid pdB t2)).filter
          (fun p => p.2.user_uid == uidA)) :=
      List.take_subset limit _ hq
    rw [mem_sortDescByAccess] at hq1
    have hq2 := List.of_mem_filter hq1
    have hq3 := List.mem_of_mem_filter hq1
    have hq3' : q ∈ dictInsert (savePlaylistMemory mem uidA pid pdA t1) pid
        { user_uid := uidB, playlist_url := pdB.playlist_url,
          playlist_name := pdB.playlist_name,
          playlist_owner := pdB.playlist_owner,
          track_count := pdB.track_count, image_url := pdB.image_url,
          last_accessed_at := t2,
          access_count := match alookup
              (savePlaylistMemory mem uidA pid pdA t1) pid with
            | some ex => if ex.user_uid == uidB then ex.access_count + 1
              else 1
            | none => 1 } := hq3
    have hqeq := mem_dictInsert_key _ _ _ q hq3' hqk
    rw [hqeq] at hq2
    simp at hq2
    exact hne hq2.symm
  · intro m uid pid' pd t ex hex huid
    rw [hstep, hex]
    have hu : (ex.user_uid == uid) = true := by simp [huid]
    simp [hu]

/-- Witness for C10: user b saving after user a takes over the single memory
document for the playlist with its count reset to one. -/
theorem playlist_memory_keyed_by_playlist_only_witness :
    ("a" : String) ≠ "b" ∧
    alookup (savePlaylistMemory (savePlaylistMemory [] "a" "P"
        ⟨"u", "n", "o", 3, "i"⟩ 1) "b" "P" ⟨"u2", "n2", "o2", 4, "i2"⟩ 2)
      "P" =
      some { user_uid := "b", playlist_url := "u2", playlist_name := "n2",
             playlist_owner := "o2", track_count := 4, image_url := "i2",
             last_accessed_at := 2, access_count := 1 } := by
  refine ⟨by decide, ?_⟩
  exact (playlist_memory_keyed_by_playlist_only [] "P" "a" "b"
    ⟨"u", "n", "o", 3, "i"⟩ ⟨"u2", "n2", "o2", 4, "i2"⟩ 1 2 10
    (by decide)).1

/-! ## Customization protection -/

theorem fetchAndUpdate_preserves_other (db : List SongDoc) (env : GeniusEnv)
    (sid : String) (force force_customized : Bool) (now : Nat) (x : SongDoc)
    (hx : x ∈ db) (hid : x.id ≠ sid) :
    x ∈ (fetchAndUpdateSongLyrics db env sid force force_customized now).2 := by
  unfold fetchAndUpdateSongLyrics
  split
  · exact hx
  · split
    · exact hx
    · split
      · exact hx
      · split
        · exact hx
        · exact List.mem_map.mpr ⟨x, hx, by simp [hid]⟩

/-- C4: a customized song cannot be overwritten by a lyrics refresh without
the explicit override: with `force_customized = false` the call returns
`False` and writes nothing; with `force_customized = true` either nothing is
written or the written document carries the fetched lyrics with
`is_customized` reset to false; and the collection-wide batch fetch leaves
every customized song untouched. -/
theorem customized_lyrics_protection :
    (∀ (db : List SongDoc) (env : GeniusEnv) (sid : String) (force : Bool)
       (now : Nat) (s : SongDoc),
       db.find? (fun x => x.id == sid) = some s →
       s.is_customized = true →
       fetchAndUpdateSongLyrics db env sid force false now = (false, db)) ∧
    (∀ (db : List SongDoc) (env : GeniusEnv) (sid : String) (force : Bool)
       (now : Nat) (s : SongDoc),
       db.find? (fun x => x.id == sid) = some s →
       s.is_customized = true →
       (fetchAndUpdateSongLyrics db env sid force true now).2 = db ∨
       (∀ s' ∈ (fetchAndUpdateSongLyrics db env sid force true now).2,
         s'.id = sid →
         s'.is_customized = false ∧
         s'.lyrics = (fetchLyrics env s.title s.artist).lyrics ∧
         s'.lyrics_numbered =
           (fetchLyrics env s.title s.artist).lyrics_numbered)) ∧
    (∀ (db : List SongDoc) (env : GeniusEnv) (cid : String) (now : Nat),
       (db.map SongDoc.id).Nodup →
       ∀ s ∈ db, s.is_customized = true →
       s ∈ batchFetchLyricsForCollection db env cid now) := by
  refine ⟨?_, ?_, ?_⟩
  · intro db env sid force now s hfind hcust
    unfold fetchAndUpdateSongLyrics
    rw [hfind]
    simp [hcust]
  · intro db env sid force now s hfind hcust
    unfold fetchAndUpdateSongLyrics
    rw [hfind]
    simp only [hcust, Bool.not_false, Bool.and_true, Bool.true_and]
    by_cases h2 : (s.lyrics_fetched && !force) = true
    · left
      simp [h2]
    · by_cases h3 : (s.title == "" || s.artist == "") = true
      · left
        simp [h2, h3]
      · right
        intro s' hs' hid
        simp only [h2, h3, if_false] at hs'
        rcases List.mem_map.mp hs' with ⟨x, _, hxeq⟩
        by_cases hxs : (x.id == sid) = true
        · rw [if_pos hxs] at hxeq
          subst hxeq
          simp
        · rw [if_neg hxs] at hxeq
          subst hxeq
          exact absurd (by simp [hid]) hxs
  · intro db env cid now hnd
    have key : ∀ (l : List SongDoc) (cur : List SongDoc),
        (∀ d ∈ l, d ∈ db) →
        (∀ c ∈ db, c.is_customized = true → c ∈ cur) →
        ∀ c ∈ db, c.is_customized = true →
        c ∈ l.foldl (batchFetchStep env now) cur := by
      intro l
      induction l with
      | nil =>
        intro cur _ hcur c hc hcust
        exact hcur c hc hcust
      | cons d ds ih =>
        intro cur hl hcur c hc hcust
        rw [List.foldl_cons]
        refine ih _ (fun x hx => hl x (List.mem_cons_of_mem d hx)) ?_ c hc
          hcust
        intro c' hc' hcust'
        unfold batchFetchStep
        by_cases hd : d.is_customized = true
        · rw [if_pos hd]
          exact hcur c' hc' hcust'
        · rw [if_neg hd]
          have hdin : d ∈ db := hl d (List.mem_cons_self d ds)
          have hne : c'.id ≠ d.id := by
            intro heq
            have := List.inj_on_of_nodup_map hnd hc' hdin heq
            rw [this] at hcust'
            exact hd hcust'
          exact fetchAndUpdate_preserves_other cur env d.id false false now
            c' (hcur c' hc' hcust') hne
    intro s hs hcust
    exact key (db.filter (fun s =>
        s.collection_id == cid && s.lyrics_fetched == false)) db
      (fun d hd => List.mem_of_mem_filter hd) (fun c hc _ => hc) s hs hcust

/-- Witness for C4: a customized song with a stale fetch flag is left
untouched by a non-forced refresh. -/
theorem customized_lyrics_protection_witness :
    (([{ wSong1 with is_customized := true }] :
        List SongDoc).find? (fun x => x.id == "s1") =
      some { wSong1 with is_customized := true }) ∧
    fetchAndUpdateSongLyrics [{ wSong1 with is_customized := true }]
      ⟨none, fun _ => none⟩ "s1" true false 9 =
      (false, [{ wSong1 with is_customized := true }]) := by
  refine ⟨by decide, ?_⟩
  exact customized_lyrics_protection.1 [{ wSong1 with is_customized := true }]
    ⟨none, fun _ => none⟩ "s1" true 9 { wSong1 with is_customized := true }
    (by decide) (by decide)

/-! ## Frame effect of import/sync updates -/

/-- Every `SongDoc` field except `source_playlist_ids`, `playlist_positions`
and `updated_at` — the three fields an import/sync update may write. -/
def frameOf (s : SongDoc) :=
  (s.id, s.collection_id, s.title, s.artist, s.album, s.year,
   s.album_art_url, s.spotify_track_id, s.spotify_uri, s.spotify_url,
   s.duration_ms, s.lyrics, s.lyrics_numbered, s.lyrics_fetched,
   s.is_customized, s.bpm, s.notes, s.is_orphaned, s.orphaned_at,
   s.lyrics_fetch_error, s.lyrics_fetched_at, s.custom_lyrics, s.created_at,
   s.created_by_uid)

/-- The fields a song keeps across sync and playlist bookkeeping that the
user may have edited (plus the identity): document id, lyrics, numbered
lyrics, customization flag, notes and BPM. -/
def userVisibleOf (s : SongDoc) :=
  (s.id, s.lyrics, s.lyrics_numbered, s.is_customized, s.notes, s.bpm)

theorem batchStep_db_shape (cid pid uid : String) (now : Nat)
    (st : BatchState) (ti : TrackInfo) :
    (batchStep cid pid uid now st ti).db = st.db ∨
    (∃ sid sp pp, (batchStep cid pid uid now st ti).db =
      st.db.map (fun s => if s.id == sid then
        { s with source_playlist_ids := sp, playlist_positions := pp,
                 updated_at := now }
      else s)) ∨
    ∃ d, (batchStep cid pid uid now st ti).db = st.db ++ [d] := by
  simp only [batchStep]
  split
  · left
    rfl
  · split
    · right
      left
      exact ⟨_, _, _, rfl⟩
    · right
      right
      exact ⟨_, rfl⟩

theorem batchStep_preserves_frame (cid pid uid : String) (now : Nat)
    (st : BatchState) (ti : TrackInfo) (x : SongDoc) (hx : x ∈ st.db) :
    ∃ x' ∈ (batchStep cid pid uid now st ti).db,
      frameOf x' = frameOf x ∧ userVisibleOf x' = userVisibleOf x := by
  rcases batchStep_db_shape cid pid uid now st ti with h | ⟨sid, sp, pp, h⟩ |
    ⟨d, h⟩ <;> rw [h]
  · exact ⟨x, hx, rfl, rfl⟩
  · refine ⟨_, List.mem_map_of_mem _ hx, ?_, ?_⟩
    · show frameOf _ = frameOf x
      split <;> rfl
    · show userVisibleOf _ = userVisibleOf x
      split <;> rfl
  · exact ⟨x, List.mem_append_left _ hx, rfl, rfl⟩

theorem batchFold_preserves_frame (cid pid uid : String) (now : Nat)
    (tracks : List TrackInfo) :
    ∀ (st : BatchState), ∀ x ∈ st.db,
      ∃ x' ∈ (tracks.foldl (batchStep cid pid uid now) st).db,
        frameOf x' = frameOf x ∧ userVisibleOf x' = userVisibleOf x := by
  induction tracks with
  | nil =>
    intro st x hx
    exact ⟨x, hx, rfl, rfl⟩
  | cons t ts ih =>
    intro st x hx
    rw [List.foldl_cons]
    rcases batchStep_preserves_frame cid pid uid now st t x hx with
      ⟨y, hy, hfy, huy⟩
    rcases ih (batchStep cid pid uid now st t) y hy with ⟨z, hz, hfz, huz⟩
    exact ⟨z, hz, hfz.trans hfy, huz.trans huy⟩

/-- C7: when an import updates an existing song, the write changes only
`source_playlist_ids`, `playlist_positions` and `updated_at`: every song of
the starting database survives both `batch_create_or_update_songs` and
`create_or_update_song` with all other fields (in particular lyrics,
numbered lyrics, customization flag, notes and BPM) unchanged. -/
theorem import_update_frame :
    (∀ (db : List SongDoc) (nextId : Nat) (cid pid : String)
       (tracks : List TrackInfo) (uid : String) (now : Nat),
       ∀ s ∈ db,
         ∃ s' ∈ (batchCreateOrUpdateSongs db nextId cid pid tracks uid
           now).db, frameOf s' = frameOf s) ∧
    (∀ (db : List SongDoc) (nextId : Nat) (cid pid : String)
       (track : TrackData) (pos : Nat) (uid : String) (now : Nat)
       (r : String × List SongDoc × Nat),
       createOrUpdateSong db nextId cid pid track pos uid now = .ok r →
       ∀ s ∈ db, ∃ s' ∈ r.2.1, frameOf s' = frameOf s) := by
  constructor
  · intro db nextId cid pid tracks uid now s hs
    rcases batchFold_preserves_frame cid pid uid now tracks
      { db := db, existing := buildExisting db cid, nextId := nextId,
        created := 0, updated := 0 } s hs with ⟨s', hs', hf, _⟩
    exact ⟨s', hs', hf⟩
  · intro db nextId cid pid track pos uid now r hok s hs
    simp only [createOrUpdateSong] at hok
    split at hok
    · exact absurd hok (by simp)
    · split at hok
      · cases hok
        refine ⟨_, List.mem_map_of_mem _ hs, ?_⟩
        show frameOf _ = frameOf s
        split <;> rfl
      · cases hok
        exact ⟨s, List.mem_append_left _ hs, rfl⟩

/-- Witness for C7: a batch import over an existing song keeps its frame. -/
theorem import_update_frame_witness :
    wSong1 ∈ [wSong1] ∧
    ∃ s' ∈ (batchCreateOrUpdateSongs [wSong1] 0 "c1" "p2"
      [⟨⟨"T", "A", "", "", "", "tr", "", "", 0⟩, 0⟩] "u" 9).db,
      frameOf s' = frameOf wSong1 := by
  refine ⟨by decide, ?_⟩
  exact import_update_frame.1 [wSong1] 0 "c1" "p2"
    [⟨⟨"T", "A", "", "", "", "tr", "", "", 0⟩, 0⟩] "u" 9 wSong1 (by decide)

/-! ## Retention of songs -/

theorem syncOnePlaylist_db_shape (cid uid : String)
    (fetch : String → List TrackData) (now : Nat) (st : SyncState)
    (pid : String) :
    (syncOnePlaylist cid uid fetch now st pid).db = st.db ∨
    ∃ tracks, (syncOnePlaylist cid uid fetch now st pid).db =
      (batchCreateOrUpdateSongs st.db st.nextId cid pid tracks uid now).db := by
  simp only [syncOnePlaylist]
  split
  · left
    rfl
  · right
    exact ⟨_, rfl⟩

theorem syncOnePlaylist_preserves_user (cid uid : String)
    (fetch : String → List TrackData) (now : Nat) (st : SyncState)
    (pid : String) (x : SongDoc) (hx : x ∈ st.db) :
    ∃ x' ∈ (syncOnePlaylist cid uid fetch now st pid).db,
      userVisibleOf x' = userVisibleOf x := by
  rcases syncOnePlaylist_db_shape cid uid fetch now st pid with h |
    ⟨tracks, h⟩ <;> rw [h]
  · exact ⟨x, hx, rfl⟩
  · rcases batchFold_preserves_frame cid pid uid now tracks
      { db := st.db, existing := buildExisting st.db cid,
        nextId := st.nextId, created := 0, updated := 0 } x hx with
      ⟨x', hx', _, hu⟩
    exact ⟨x', hx', hu⟩

theorem syncFold_preserves_user (cid uid : String)
    (fetch : String → List TrackData) (now : Nat) (linked : List String) :
    ∀ (st : SyncState), ∀ x ∈ st.db,
      ∃ x' ∈ (linked.foldl (syncOnePlaylist cid uid fetch now) st).db,
        userVisibleOf x' = userVisibleOf x := by
  induction linked with
  | nil =>
    intro st x hx
    exact ⟨x, hx, rfl⟩
  | cons p ps ih =>
    intro st x hx
    rw [List.foldl_cons]
    rcases syncOnePlaylist_preserves_user cid uid fetch now st p x hx with
      ⟨y, hy, hu1⟩
    rcases ih (syncOnePlaylist cid uid fetch now st p) y hy with ⟨z, hz, hu2⟩
    exact ⟨z, hz, hu2.trans hu1⟩

theorem orphanPassDoc_user (cid : String) (current : List String) (now : Nat)
    (s : SongDoc) :
    userVisibleOf (orphanPassDoc cid current now s) = userVisibleOf s := by
  unfold orphanPassDoc
  split
  · split
    · split <;> rfl
    · split <;> rfl
  · rfl

theorem syncPlaylists_db_shape (db : List SongDoc)
    (colls : List CollectionDoc) (nextId : Nat) (cid : String)
    (linked : List String) (fetch : String → List TrackData) (uid : String)
    (now : Nat) :
    (syncPlaylists db colls nextId cid linked fetch uid now).db = db ∨
    (syncPlaylists db colls nextId cid linked fetch uid now).db =
      (linked.foldl (syncOnePlaylist cid uid fetch now)
        { db := db, nextId := nextId, added := 0, updated := 0,
          trackIds := [] }).db.map
        (orphanPassDoc cid
          (linked.foldl (syncOnePlaylist cid uid fetch now)
            { db := db, nextId := nextId, added := 0, updated := 0,
              trackIds := [] }).trackIds now) := by
  simp only [syncPlaylists]
  split
  · left
    rfl
  · right
    rfl

theorem syncPlaylists_preserves_user (db : List SongDoc)
    (colls : List CollectionDoc) (nextId : Nat) (cid : String)
    (linked : List String) (fetch : String → List TrackData) (uid : String)
    (now : Nat) (x : SongDoc) (hx : x ∈ db) :
    ∃ x' ∈ (syncPlaylists db colls nextId cid linked fetch uid now).db,
      userVisibleOf x' = userVisibleOf x := by
  rcases syncPlaylists_db_shape db colls nextId cid linked fetch uid now with
    h | h <;> rw [h]
  · exact ⟨x, hx, rfl⟩
  · rcases syncFold_preserves_user cid uid fetch now linked
      { db := db, nextId := nextId, added := 0, updated := 0,
        trackIds := [] } x hx with ⟨y, hy, hu⟩
    refine ⟨orphanPassDoc cid _ now y, List.mem_map_of_mem _ hy, ?_⟩
    exact (orphanPassDoc_user _ _ _ _).trans hu

theorem songEndpoint_songs_shape (songs : List SongDoc)
    (colls : List CollectionDoc) (songId uid : String) (method : HttpMethod)
    (body : SongPutBody) (now : Nat) (sdoc : SongDoc)
    (hfind : songs.find? (fun s => s.id == songId) = some sdoc) :
    (songEndpoint songs colls songId uid method body now).2.1 = songs ∨
    (songEndpoint songs colls songId uid method body now).2.1 =
      songs.map (fun s =>
        if s.id == songId then applySongPut body s else s) ∨
    (method = .delete ∧
     checkUserAccessLevel colls sdoc.collection_id uid = "owner" ∧
     sdoc.is_orphaned = true) := by
  unfold songEndpoint
  rw [hfind]
  rcases hg : getCollection colls sdoc.collection_id uid with _ | c
  · left
    simp [hg]
  · rcases method with _ | _ | _
    · left
      simp [hg]
    · simp only [hg]
      split
      · left
        rfl
      · split
        · right
          left
          rfl
        · left
          rfl
    · simp only [hg]
      split
      next hlvl =>
        left
        rfl
      next hlvl =>
        split
        next horph =>
          left
          rfl
        next horph =>
          right
          right
          refine ⟨by trivial, ?_, ?_⟩
          · have := Bool.not_eq_true _ |>.mp hlvl
            simpa using this
          · simpa using horph

/-- C3 (counterexample): `remove_playlist_from_song` — the operation behind
playlist unlinking, not the explicit delete endpoint — deletes a song
outright once its last playlist reference is removed. -/
theorem song_deleted_by_playlist_removal :
    (removePlaylistFromSong [wSong1] "s1" "p1" 5).1 = true ∧
    ¬ ∃ s ∈ (removePlaylistFromSong [wSong1] "s1" "p1" 5).2,
      s.id = "s1" := by
  decide

/-- C3 (amended): sync never deletes a song — every song survives
`sync_playlists` with its identity, lyrics, customization flag, notes and
BPM intact — and on the song endpoint only an explicit DELETE by the
collection owner of an orphaned song removes the document; however,
`remove_playlist_from_song` (used by playlist unlinking) deletes a song once
its last playlist reference is removed. -/
theorem songs_retained_except_explicit_delete :
    (∀ (db : List SongDoc) (colls : List CollectionDoc) (nextId : Nat)
       (cid : String) (linked : List String)
       (fetch : String → List TrackData) (uid : String) (now : Nat),
       ∀ s ∈ db,
         ∃ s' ∈ (syncPlaylists db colls nextId cid linked fetch uid now).db,
           userVisibleOf s' = userVisibleOf s) ∧
    (∀ (songs : List SongDoc) (colls : List CollectionDoc)
       (songId uid : String) (method : HttpMethod) (body : SongPutBody)
       (now : Nat) (sdoc : SongDoc),
       songs.find? (fun s => s.id == songId) = some sdoc →
       (¬ ∃ s' ∈ (songEndpoint songs colls songId uid method body now).2.1,
         s'.id = songId) →
       method = .delete ∧
       checkUserAccessLevel colls sdoc.collection_id uid = "owner" ∧
       sdoc.is_orphaned = true) := by
  constructor
  · intro db colls nextId cid linked fetch uid now s hs
    exact syncPlaylists_preserves_user db colls nextId cid linked fetch uid
      now s hs
  · intro songs colls songId uid method body now sdoc hfind hgone
    have hmem : sdoc ∈ songs := List.mem_of_find?_eq_some hfind
    have hid : sdoc.id = songId := by
      simpa using List.find?_some hfind
    rcases songEndpoint_songs_shape songs colls songId uid method body now
      sdoc hfind with h | h | h
    · exact absurd ⟨sdoc, by rw [h]; exact hmem, hid⟩ hgone
    · refine absurd ⟨(if (sdoc.id == songId) = true then
        applySongPut body sdoc else sdoc), ?_, ?_⟩ hgone
      · rw [h]
        exact List.mem_map_of_mem _ hmem
      · rw [if_pos (by simp [hid])]
        exact hid
    · exact h

/-- Witness for C3: syncing a collection whose playlist no longer contains
the song keeps the song document (orphaned, not deleted) with notes and
lyrics intact. -/
theorem songs_retained_except_explicit_delete_witness :
    wSong1 ∈ [wSong1] ∧
    ∃ s' ∈ (syncPlaylists [wSong1] [wColl1] 0 "c1" ["p1"] (fun _ => [])
      "u" 7).db, userVisibleOf s' = userVisibleOf wSong1 := by
  refine ⟨by decide, ?_⟩
  exact songs_retained_except_explicit_delete.1 [wSong1] [wColl1] 0 "c1"
    ["p1"] (fun _ => []) "u" 7 wSong1 (by decide)

/-! ## Orphan reconciliation -/

theorem syncOnePlaylist_trackIds (cid uid : String)
    (fetch : String → List TrackData) (now : Nat) (st : SyncState)
    (pid : String) :
    (syncOnePlaylist cid uid fetch now st pid).trackIds =
      if (pid == "") = true then st.trackIds
      else st.trackIds ++
        ((fetch pid).map (fun td => td.spotify_track_id)).filter
          (fun x => x != "") := by
  simp only [syncOnePlaylist]
  split <;> rfl

theorem mem_syncFold_trackIds (cid uid : String)
    (fetch : String → List TrackData) (now : Nat) (linked : List String) :
    ∀ (st : SyncState) (t : String),
      t ∈ (linked.foldl (syncOnePlaylist cid uid fetch now) st).trackIds ↔
        t ∈ st.trackIds ∨ ∃ pid ∈ linked, pid ≠ "" ∧
          t ∈ ((fetch pid).map (fun td => td.spotify_track_id)).filter
            (fun x => x != "") := by
  induction linked with
  | nil =>
    intro st t
    simp
  | cons p ps ih =>
    intro st t
    rw [List.foldl_cons, ih, syncOnePlaylist_trackIds]
    by_cases hp : (p == "") = true
    · rw [if_pos hp]
      have hp' : p = "" := by simpa using hp
      subst hp'
      constructor
      · rintro (h | ⟨pid, hmem, hne, h2⟩)
        · exact Or.inl h
        · exact Or.inr ⟨pid, List.mem_cons_of_mem _ hmem, hne, h2⟩
      · rintro (h | ⟨pid, hmem, hne, h2⟩)
        · exact Or.inl h
        · rcases List.mem_cons.mp hmem with heq | hmem'
          · exact absurd heq hne
          · exact Or.inr ⟨pid, hmem', hne, h2⟩
    · rw [if_neg hp]
      have hp' : p ≠ "" := by simpa using hp
      constructor
      · rintro (h | ⟨pid, hmem, hne, h2⟩)
        · rcases List.mem_append.mp h with h1 | h1
          · exact Or.inl h1
          · exact Or.inr ⟨p, List.mem_cons_self p ps, hp', h1⟩
        · exact Or.inr ⟨pid, List.mem_cons_of_mem _ hmem, hne, h2⟩
      · rintro (h | ⟨pid, hmem, hne, h2⟩)
        · exact Or.inl (List.mem_append_left _ h)
        · rcases List.mem_cons.mp hmem with heq | hmem'
          · subst heq
            exact Or.inl (List.mem_append_right _ h2)
          · exact Or.inr ⟨pid, hmem', hne, h2⟩

theorem orphanPassDoc_fields (cid : String) (current : List String)
    (now : Nat) (s : SongDoc) :
    (orphanPassDoc cid current now s).collection_id = s.collection_id ∧
    (orphanPassDoc cid current now s).spotify_track_id =
      s.spotify_track_id := by
  unfold orphanPassDoc
  split
  · split
    · split <;> exact ⟨rfl, rfl⟩
    · split <;> exact ⟨rfl, rfl⟩
  · exact ⟨rfl, rfl⟩

theorem orphanPassDoc_orphaned (cid : String) (current : List String)
    (now : Nat) (s : SongDoc)
    (h : (s.collection_id == cid && s.spotify_track_id != "") = true) :
    (orphanPassDoc cid current now s).is_orphaned =
      !current.contains s.spotify_track_id := by
  unfold orphanPassDoc
  rw [if_pos h]
  by_cases hc : (!current.contains s.spotify_track_id) = true
  · rw [if_pos hc, hc]
    split
    · rfl
    next h2 => simpa using h2
  · rw [if_neg hc]
    have hc' : (!current.contains s.spotify_track_id) = false := by
      rwa [Bool.not_eq_true] at hc
    rw [hc']
    split
    · rfl
    next h2 => simpa using h2

theorem syncPlaylists_db_nonempty (db : List SongDoc)
    (colls : List CollectionDoc) (nextId : Nat) (cid : String)
    (linked : List String) (fetch : String → List TrackData) (uid : String)
    (now : Nat) (h : linked.isEmpty = false) :
    (syncPlaylists db colls nextId cid linked fetch uid now).db =
      (linked.foldl (syncOnePlaylist cid uid fetch now)
        { db := db, nextId := nextId, added := 0, updated := 0,
          trackIds := [] }).db.map
        (orphanPassDoc cid
          (linked.foldl (syncOnePlaylist cid uid fetch now)
            { db := db, nextId := nextId, added := 0, updated := 0,
              trackIds := [] }).trackIds now) := by
  simp only [syncPlaylists]
  rw [if_neg (by simp [h])]

/-- C2: after `sync_playlists` runs over a collection with at least one
linked playlist, a song of that collection carrying a track id is orphaned
exactly when its track id is absent from every fetched playlist — removal
from all linked playlists sets the flag and re-appearance clears it. -/
theorem sync_orphan_reconciliation (db : List SongDoc)
    (colls : List CollectionDoc) (nextId : Nat) (cid : String)
    (linked : List String) (fetch : String → List TrackData) (uid : String)
    (now : Nat) (hne : linked ≠ []) (s' : SongDoc)
    (hs' : s' ∈ (syncPlaylists db colls nextId cid linked fetch uid now).db)
    (hcid : s'.collection_id = cid) (htid : s'.spotify_track_id ≠ "") :
    s'.is_orphaned = true ↔
      ¬ ∃ pid ∈ linked, pid ≠ "" ∧
        s'.spotify_track_id ∈
          (fetch pid).map (fun td => td.spotify_track_id) := by
  have hemp : linked.isEmpty = false := by
    cases linked with
    | nil => exact absurd rfl hne
    | cons a l => rfl
  rw [syncPlaylists_db_nonempty db colls nextId cid linked fetch uid now
    hemp] at hs'
  rcases List.mem_map.mp hs' with ⟨x, hx, hmap⟩
  subst hmap
  have hf := orphanPassDoc_fields cid
    (linked.foldl (syncOnePlaylist cid uid fetch now)
      { db := db, nextId := nextId, added := 0, updated := 0,
        trackIds := [] }).trackIds now x
  rw [hf.1] at hcid
  rw [hf.2] at htid
  have horb := orphanPassDoc_orphaned cid
    (linked.foldl (syncOnePlaylist cid uid fetch now)
      { db := db, nextId := nextId, added := 0, updated := 0,
        trackIds := [] }).trackIds now x (by simp [hcid, htid])
  have hmem := mem_syncFold_trackIds cid uid fetch now linked
    { db := db, nextId := nextId, added := 0, updated := 0, trackIds := [] }
    x.spotify_track_id
  simp only [List.not_mem_nil, false_or] at hmem
  rw [horb, hf.2]
  constructor
  · intro hb hex
    have hcontains : (linked.foldl (syncOnePlaylist cid uid fetch now)
        { db := db, nextId := nextId, added := 0, updated := 0,
          trackIds := [] }).trackIds.contains x.spotify_track_id = false := by
      rcases Bool.eq_false_or_eq_true ((linked.foldl
        (syncOnePlaylist cid uid fetch now)
        { db := db, nextId := nextId, added := 0, updated := 0,
          trackIds := [] }).trackIds.contains x.spotify_track_id) with h | h
      · rw [h] at hb
        simp at hb
      · exact h
    rcases hex with ⟨pid, hpmem, hpne, hpt⟩
    have hin : x.spotify_track_id ∈ (linked.foldl
        (syncOnePlaylist cid uid fetch now)
        { db := db, nextId := nextId, added := 0, updated := 0,
          trackIds := [] }).trackIds := by
      rw [hmem]
      exact ⟨pid, hpmem, hpne, List.mem_filter.mpr
        ⟨hpt, by simp [htid]⟩⟩
    have : (linked.foldl (syncOnePlaylist cid uid fetch now)
        { db := db, nextId := nextId, added := 0, updated := 0,
          trackIds := [] }).trackIds.contains x.spotify_track_id = true := by
      simpa using hin
    rw [this] at hcontains
    exact absurd hcontains (by simp)
  · intro hnex
    have hnotin : x.spotify_track_id ∉ (linked.foldl
        (syncOnePlaylist cid uid fetch now)
        { db := db, nextId := nextId, added := 0, updated := 0,
          trackIds := [] }).trackIds := by
      intro hin
      rcases hmem.mp hin with ⟨pid, hpmem, hpne, hpt⟩
      exact hnex ⟨pid, hpmem, hpne, (List.mem_filter.mp hpt).1⟩
    simp [hnotin]

/-- The sample song after being marked orphaned at time 7. -/
def wSong1Orph : SongDoc :=
  { wSong1 with is_orphaned := true, orphaned_at := some 7 }

/-- Witness for C2: a collection song absent from the only linked playlist is
orphaned after sync. -/
theorem sync_orphan_reconciliation_witness :
    (["p1"] : List String) ≠ [] ∧
    wSong1Orph ∈
      (syncPlaylists [wSong1] [wColl1] 0 "c1" ["p1"] (fun _ => [])
        "u" 7).db ∧
    (wSong1Orph.is_orphaned = true ↔
      ¬ ∃ pid ∈ (["p1"] : List String), pid ≠ "" ∧
        wSong1Orph.spotify_track_id ∈
          ((fun (_ : String) => ([] : List TrackData)) pid).map
            (fun td => td.spotify_track_id)) := by
  refine ⟨by decide, by decide, ?_⟩
  exact sync_orphan_reconciliation [wSong1] [wColl1] 0 "c1" ["p1"]
    (fun _ => []) "u" 7 (by decide) wSong1Orph
    (by decide) (by decide) (by decide)

/-! ## Import idempotence: counting documents per (collection, track) -/

/-- Number of song documents with the given composite identity
(collection_id, spotify_track_id). -/
def countPair (db : List SongDoc) (cid tid : String) : Nat :=
  (db.filter (fun s =>
    s.collection_id == cid && s.spotify_track_id == tid)).length

/-- The non-empty spotify track ids of a track list. -/
def trackIdsOf (tracks : List TrackInfo) : List String :=
  (tracks.map (fun ti => ti.track.spotify_track_id)).filter
    (fun t => t != "")

theorem alookup_eq_none_iff {α : Type} (m : List (String × α)) (k : String) :
    alookup m k = none ↔ dictHasKey m k = false := by
  unfold alookup dictHasKey
  rcases hf : m.find? (fun p => p.1 == k) with _ | p <;> rw [hf]
  · simp only [Option.map_none', true_iff]
    rw [List.find?_eq_none] at hf
    rw [List.any_eq_false]
    intro x hx
    simp only [Bool.not_eq_true]
    rcases Bool.eq_false_or_eq_true (x.1 == k) with h | h
    · exact absurd h (hf x hx)
    · exact h
  · simp only [Option.map_some']
    constructor
    · intro h
      exact absurd h (by simp)
    · intro h
      rw [List.any_eq_false] at h
      exact absurd (List.find?_some hf)
        (by simpa using h p (List.mem_of_find?_eq_some hf))

theorem alookup_some_hasKey {α : Type} (m : List (String × α)) (k : String)
    (w : α) (h : alookup m k = some w) : dictHasKey m k = true := by
  rcases Bool.eq_false_or_eq_true (dictHasKey m k) with hb | hb
  · exact hb
  · rw [← alookup_eq_none_iff] at hb
    rw [hb] at h
    exact absurd h (by simp)

theorem dictHasKey_replace {α : Type} (m : List (String × α))
    (k k' : String) (v : α) :
    dictHasKey (m.map (fun p => if p.1 == k then (k, v) else p)) k' =
      dictHasKey m k' := by
  unfold dictHasKey
  induction m with
  | nil => simp
  | cons p ps ih =>
    simp only [List.map_cons, List.any_cons]
    rw [ih]
    by_cases hx : (p.1 == k) = true
    · have hpk : p.1 = k := by simpa using hx
      rw [if_pos hx, hpk]
    · rw [if_neg hx]

theorem dictHasKey_dictInsert_of_mem {α : Type} (m : List (String × α))
    (k k' : String) (v : α) (h : dictHasKey m k = true) :
    dictHasKey (dictInsert m k v) k' = dictHasKey m k' := by
  unfold dictInsert
  rw [if_pos (show (m.any fun p => p.1 == k) = true from h)]
  exact dictHasKey_replace m k k' v

theorem dictHasKey_dictInsert {α : Type} (m : List (String × α))
    (k k' : String) (v : α) :
    dictHasKey (dictInsert m k v) k' = (k' == k || dictHasKey m k') := by
  by_cases h : dictHasKey m k = true
  · rw [dictHasKey_dictInsert_of_mem m k k' v h]
    by_cases hk : (k' == k) = true
    · have : k' = k := by simpa using hk
      subst this
      simp [h, hk]
    · simp only [Bool.not_eq_true] at hk
      rw [hk, Bool.false_or]
  · unfold dictInsert
    rw [if_neg (show ¬((m.any fun p => p.1 == k) = true) from h)]
    unfold dictHasKey
    rw [List.any_append]
    simp only [List.any_cons, List.any_nil, Bool.or_false]
    rw [Bool.or_comm, Bool.beq_comm]

theorem batchStep_keys (cid pid uid : String) (now : Nat) (st : BatchState)
    (ti : TrackInfo) (k : String) :
    dictHasKey (batchStep cid pid uid now st ti).existing k =
      dictHasKey st.existing k := by
  by_cases h0 : (ti.track.spotify_track_id == "") = true
  · have : batchStep cid pid uid now st ti = st := by
      simp only [batchStep]
      rw [if_pos h0]
    rw [this]
  · rcases halk : alookup st.existing ti.track.spotify_track_id with _ |
      ⟨sid, sdata⟩
    · have : (batchStep cid pid uid now st ti).existing = st.existing := by
        simp only [batchStep]
        rw [if_neg h0, halk]
      rw [this]
    · have : (batchStep cid pid uid now st ti).existing =
          dictInsert st.existing ti.track.spotify_track_id
            (sid, { sdata with
              source_playlist_ids :=
                if sdata.source_playlist_ids.contains pid then
                  sdata.source_playlist_ids
                else sdata.source_playlist_ids ++ [pid],
              playlist_positions :=
                dictInsert sdata.playlist_positions pid ti.position }) := by
        simp only [batchStep]
        rw [if_neg h0, halk]
      rw [this]
      exact dictHasKey_dictInsert_of_mem _ _ _ _
        (alookup_some_hasKey _ _ _ halk)

theorem countPair_append_single (db : List SongDoc) (d : SongDoc)
    (cid tid : String) :
    countPair (db ++ [d]) cid tid =
      countPair db cid tid +
        (if (d.collection_id == cid && d.spotify_track_id == tid) = true
         then 1 else 0) := by
  unfold countPair
  rw [List.filter_append, List.length_append]
  congr 1
  simp only [List.filter_cons, List.filter_nil]
  split <;> rfl

theorem countPair_map_pres (db : List SongDoc) (f : SongDoc → SongDoc)
    (cid tid : String)
    (hf : ∀ s, (f s).collection_id = s.collection_id ∧
      (f s).spotify_track_id = s.spotify_track_id) :
    countPair (db.map f) cid tid = countPair db cid tid := by
  unfold countPair
  induction db with
  | nil => rfl
  | cons s ss ih =>
    simp only [List.map_cons, List.filter_cons]
    have hps : ((f s).collection_id == cid &&
        (f s).spotify_track_id == tid) =
        (s.collection_id == cid && s.spotify_track_id == tid) := by
      rw [(hf s).1, (hf s).2]
    rw [hps]
    split
    · rw [List.length_cons, List.length_cons, ih]
    · exact ih

theorem batchStep_countPair (cid pid uid : String) (now : Nat)
    (st : BatchState) (ti : TrackInfo) (tid' : String) :
    countPair (batchStep cid pid uid now st ti).db cid tid' =
      countPair st.db cid tid' +
        (if ti.track.spotify_track_id ≠ "" ∧
            alookup st.existing ti.track.spotify_track_id = none ∧
            tid' = ti.track.spotify_track_id then 1 else 0) := by
  by_cases h0 : (ti.track.spotify_track_id == "") = true
  · have hstep : batchStep cid pid uid now st ti = st := by
      simp only [batchStep]
      rw [if_pos h0]
    rw [hstep, if_neg (fun hc => hc.1 (by simpa using h0))]
    omega
  · rcases halk : alookup st.existing ti.track.spotify_track_id with _ |
      ⟨sid, sdata⟩
    · have hdb : (batchStep cid pid uid now st ti).db =
          st.db ++ [newSongDoc cid ti.track pid ti.position uid now
            (freshId st.nextId)] := by
        simp only [batchStep]
        rw [if_neg h0, halk]
      rw [hdb, countPair_append_single]
      congr 1
      by_cases ht : tid' = ti.track.spotify_track_id
      · subst ht
        rw [if_pos (by simp [newSongDoc]),
          if_pos ⟨by simpa using h0, rfl, rfl⟩]
      · rw [if_neg (by simp [newSongDoc]; exact fun h => ht h.symm),
          if_neg (fun hc => ht hc.2.2)]
    · have hdb : (batchStep cid pid uid now st ti).db =
          st.db.map (fun s =>
            if s.id == sid then
              { s with
                source_playlist_ids :=
                  if sdata.source_playlist_ids.contains pid then
                    sdata.source_playlist_ids
                  else sdata.source_playlist_ids ++ [pid],
                playlist_positions :=
                  dictInsert sdata.playlist_positions pid ti.position,
                updated_at := now }
            else s) := by
        simp only [batchStep]
        rw [if_neg h0, halk]
      rw [hdb, countPair_map_pres]
      · have hno : ¬(ti.track.spotify_track_id ≠ "" ∧
            (some (sid, sdata) : Option (String × SongDoc)) = none ∧
            tid' = ti.track.spotify_track_id) := by
          rintro ⟨_, hnone, _⟩
          exact absurd hnone (by simp)
        rw [if_neg hno]
        omega
      · intro s
        constructor
        · split <;> rfl
        · split <;> rfl

theorem batchStep_created (cid pid uid : String) (now : Nat)
    (st : BatchState) (ti : TrackInfo) :
    (batchStep cid pid uid now st ti).created =
      st.created +
        (if ti.track.spotify_track_id ≠ "" ∧
            alookup st.existing ti.track.spotify_track_id = none
         then 1 else 0) := by
  by_cases h0 : (ti.track.spotify_track_id == "") = true
  · have hstep : batchStep cid pid uid now st ti = st := by
      simp only [batchStep]
      rw [if_pos h0]
    rw [hstep, if_neg (fun hc => hc.1 (by simpa using h0))]
    omega
  · rcases halk : alookup st.existing ti.track.spotify_track_id with _ |
      ⟨sid, sdata⟩
    · have hc : (batchStep cid pid uid now st ti).created =
          st.created + 1 := by
        simp only [batchStep]
        rw [if_neg h0, halk]
      rw [hc, if_pos ⟨by simpa using h0, rfl⟩]
    · have hc : (batchStep cid pid uid now st ti).created = st.created := by
        simp only [batchStep]
        rw [if_neg h0, halk]
      have hno : ¬(ti.track.spotify_track_id ≠ "" ∧
          (some (sid, sdata) : Option (String × SongDoc)) = none) := by
        rintro ⟨_, hnone⟩
        exact absurd hnone (by simp)
      rw [hc, if_neg hno]
      omega

theorem trackIdsOf_cons (t : TrackInfo) (ts : List TrackInfo) :
    trackIdsOf (t :: ts) =
      if (t.track.spotify_track_id != "") = true then
        t.track.spotify_track_id :: trackIdsOf ts
      else trackIdsOf ts := by
  unfold trackIdsOf
  rw [List.map_cons, List.filter_cons]

theorem batchFold_countPair (cid pid uid : String) (now : Nat)
    (tracks : List TrackInfo) :
    ∀ (st : BatchState) (tid' : String), (trackIdsOf tracks).Nodup →
      countPair (tracks.foldl (batchStep cid pid uid now) st).db cid tid' =
        countPair st.db cid tid' +
          (if tid' ∈ trackIdsOf tracks ∧
              dictHasKey st.existing tid' = false then 1 else 0) := by
  induction tracks with
  | nil =>
    intro st tid' _
    simp [trackIdsOf]
  | cons t ts ih =>
    intro st tid' hnd
    rw [List.foldl_cons]
    rw [trackIdsOf_cons] at hnd ⊢
    by_cases h0 : (t.track.spotify_track_id != "") = true
    · rw [if_pos h0] at hnd ⊢
      have hne : t.track.spotify_track_id ≠ "" := by simpa using h0
      rcases List.nodup_cons.mp hnd with ⟨hnotmem, hnd'⟩
      rw [ih _ tid' hnd', batchStep_keys, batchStep_countPair]
      rcases halk : alookup st.existing t.track.spotify_track_id with _ | w
      · have hkf : dictHasKey st.existing t.track.spotify_track_id =
            false := (alookup_eq_none_iff _ _).mp halk
        by_cases ht : tid' = t.track.spotify_track_id
        · subst ht
          rw [if_pos ⟨hne, rfl, rfl⟩,
            if_neg (fun hc => hnotmem hc.1),
            if_pos ⟨List.mem_cons_self _ _, hkf⟩]
        · rw [if_neg (fun hc => ht hc.2.2)]
          by_cases hm : tid' ∈ trackIdsOf ts ∧
              dictHasKey st.existing tid' = false
          · rw [if_pos hm, if_pos ⟨List.mem_cons_of_mem _ hm.1, hm.2⟩]
          · rw [if_neg hm, if_neg ?_]
            rintro ⟨hmem, hk⟩
            rcases List.mem_cons.mp hmem with heq | hmem'
            · exact ht heq
            · exact hm ⟨hmem', hk⟩
      · have hkt : dictHasKey st.existing t.track.spotify_track_id =
            true := alookup_some_hasKey _ _ _ halk
        rw [if_neg (fun hc => absurd hc.2.1 (by simp))]
        by_cases ht : tid' = t.track.spotify_track_id
        · subst ht
          have hnk : ¬(t.track.spotify_track_id ∈ trackIdsOf ts ∧
              dictHasKey st.existing t.track.spotify_track_id = false) := by
            rintro ⟨_, hk⟩
            rw [hkt] at hk
            exact absurd hk (by simp)
          have hnk2 : ¬(t.track.spotify_track_id ∈
              t.track.spotify_track_id :: trackIdsOf ts ∧
              dictHasKey st.existing t.track.spotify_track_id = false) := by
            rintro ⟨_, hk⟩
            rw [hkt] at hk
            exact absurd hk (by simp)
          rw [if_neg hnk, if_neg hnk2]
        · by_cases hm : tid' ∈ trackIdsOf ts ∧
              dictHasKey st.existing tid' = false
          · rw [if_pos hm, if_pos ⟨List.mem_cons_of_mem _ hm.1, hm.2⟩]
          · rw [if_neg hm, if_neg ?_]
            rintro ⟨hmem, hk⟩
            rcases List.mem_cons.mp hmem with heq | hmem'
            · exact ht heq
            · exact hm ⟨hmem', hk⟩
    · rw [if_neg h0] at hnd ⊢
      have h0' : (t.track.spotify_track_id == "") = true := by
        simpa using h0
      have hstep : batchStep cid pid uid now st t = st := by
        simp only [batchStep]
        rw [if_pos h0']
      rw [hstep]
      exact ih st tid' hnd

theorem batchFold_created_of_keys (cid pid uid : String) (now : Nat)
    (tracks : List TrackInfo) :
    ∀ (st : BatchState),
      (∀ ti ∈ tracks, ti.track.spotify_track_id ≠ "" →
        dictHasKey st.existing ti.track.spotify_track_id = true) →
      (tracks.foldl (batchStep cid pid uid now) st).created = st.created ∧
      ∀ tid', countPair (tracks.foldl (batchStep cid pid uid now) st).db
        cid tid' = countPair st.db cid tid' := by
  induction tracks with
  | nil =>
    intro st _
    exact ⟨rfl, fun _ => rfl⟩
  | cons t ts ih =>
    intro st hkeys
    rw [List.foldl_cons]
    have hrec := ih (batchStep cid pid uid now st t)
      (fun ti hti hne => by
        rw [batchStep_keys]
        exact hkeys ti (List.mem_cons_of_mem _ hti) hne)
    have hstep_alk : t.track.spotify_track_id ≠ "" →
        alookup st.existing t.track.spotify_track_id ≠ none := by
      intro hne hnone
      rw [alookup_eq_none_iff] at hnone
      have := hkeys t (List.mem_cons_self t ts) hne
      rw [this] at hnone
      exact absurd hnone (by simp)
    constructor
    · rw [hrec.1, batchStep_created,
        if_neg (fun hc => hstep_alk hc.1 hc.2)]
      omega
    · intro tid'
      rw [hrec.2 tid', batchStep_countPair,
        if_neg (fun hc => hstep_alk hc.1 hc.2.1)]
      omega

theorem dictHasKey_buildFold (l : List SongDoc) :
    ∀ (m : List (String × String × SongDoc)) (k : String),
      dictHasKey (l.foldl
        (fun m s => dictInsert m s.spotify_track_id (s.id, s)) m) k =
        (dictHasKey m k || l.any (fun s => s.spotify_track_id == k)) := by
  induction l with
  | nil =>
    intro m k
    simp
  | cons s ss ih =>
    intro m k
    rw [List.foldl_cons, ih, dictHasKey_dictInsert]
    simp only [List.any_cons]
    rw [Bool.beq_comm]
    rw [Bool.or_assoc, Bool.or_left_comm]

theorem hasKey_buildExisting (db : List SongDoc) (cid tid : String) :
    dictHasKey (buildExisting db cid) tid =
      db.any (fun s =>
        s.collection_id == cid && s.spotify_track_id == tid) := by
  unfold buildExisting
  rw [dictHasKey_buildFold, List.any_filter]
  simp only [dictHasKey, List.any_nil, Bool.false_or]

theorem countPair_pos_iff (db : List SongDoc) (cid tid : String) :
    0 < countPair db cid tid ↔
      db.any (fun s =>
        s.collection_id == cid && s.spotify_track_id == tid) = true := by
  unfold countPair
  rw [List.length_pos, List.any_eq_true]
  constructor
  · intro h
    rcases List.exists_mem_of_ne_nil _ h with ⟨x, hx⟩
    exact ⟨x, (List.mem_filter.mp hx).1, (List.mem_filter.mp hx).2⟩
  · rintro ⟨x, hx, hpx⟩
    exact List.ne_nil_of_mem (List.mem_filter.mpr ⟨hx, hpx⟩)

/-- One iteration of "calling create_or_update_song() in a loop" — the
per-song usage the batch docstring compares itself against.  The raised
`ValueError` for a track without a spotify_track_id leaves the database
untouched, so the error case keeps the accumulator. -/
def createOrUpdateStep (cid pid uid : String) (now : Nat)
    (acc : List SongDoc × Nat) (ti : TrackInfo) : List SongDoc × Nat :=
  match createOrUpdateSong acc.1 acc.2 cid pid ti.track ti.position uid
      now with
  | .ok r => (r.2.1, r.2.2)
  | .error _ => acc

/-- `create_or_update_song` called in a loop over a track list: each call
re-queries the database, unlike the batch variant's one up-front query. -/
def createOrUpdateLoop (db : List SongDoc) (nextId : Nat)
    (cid pid : String) (tracks : List TrackInfo) (uid : String)
    (now : Nat) : List SongDoc × Nat :=
  tracks.foldl (createOrUpdateStep cid pid uid now) (db, nextId)

theorem filter_head?_none_iff_count_zero (db : List SongDoc)
    (cid tid : String) :
    (db.filter (fun s =>
      s.collection_id == cid && s.spotify_track_id == tid)).head? = none ↔
    countPair db cid tid = 0 := by
  unfold countPair
  rw [List.head?_eq_none_iff, List.length_eq_zero]

theorem createOrUpdateStep_countPair (cid pid uid : String) (now : Nat)
    (acc : List SongDoc × Nat) (ti : TrackInfo) (tid' : String) :
    countPair (createOrUpdateStep cid pid uid now acc ti).1 cid tid' =
      countPair acc.1 cid tid' +
        (if ti.track.spotify_track_id ≠ "" ∧
            countPair acc.1 cid ti.track.spotify_track_id = 0 ∧
            tid' = ti.track.spotify_track_id then 1 else 0) := by
  by_cases h0 : (ti.track.spotify_track_id == "") = true
  · have hstep : createOrUpdateStep cid pid uid now acc ti = acc := by
      simp only [createOrUpdateStep, createOrUpdateSong]
      rw [if_pos h0]
    rw [hstep, if_neg (fun hc => hc.1 (by simpa using h0))]
    omega
  · rcases hh : (acc.1.filter (fun s =>
        s.collection_id == cid &&
        s.spotify_track_id == ti.track.spotify_track_id)).head? with _ |
      sdoc
    · have hz : countPair acc.1 cid ti.track.spotify_track_id = 0 :=
        (filter_head?_none_iff_count_zero _ _ _).mp hh
      have hdb : (createOrUpdateStep cid pid uid now acc ti).1 =
          acc.1 ++ [newSongDoc cid ti.track pid ti.position uid now
            (freshId acc.2)] := by
        simp only [createOrUpdateStep, createOrUpdateSong]
        rw [if_neg h0, hh]
      rw [hdb, countPair_append_single]
      congr 1
      by_cases ht : tid' = ti.track.spotify_track_id
      · subst ht
        rw [if_pos (by simp [newSongDoc]),
          if_pos ⟨by simpa using h0, hz, rfl⟩]
      · rw [if_neg (by simp [newSongDoc]; exact fun h => ht h.symm),
          if_neg (fun hc => ht hc.2.2)]
    · have hnz : countPair acc.1 cid ti.track.spotify_track_id ≠ 0 := by
        intro hz
        rw [← filter_head?_none_iff_count_zero] at hz
        rw [hh] at hz
        exact absurd hz (by simp)
      have hdb : (createOrUpdateStep cid pid uid now acc ti).1 =
          acc.1.map (fun s =>
            if s.id == sdoc.id then
              { s with
                source_playlist_ids :=
                  if sdoc.source_playlist_ids.contains pid then
                    sdoc.source_playlist_ids
                  else sdoc.source_playlist_ids ++ [pid],
                playlist_positions :=
                  dictInsert sdoc.playlist_positions pid ti.position,
                updated_at := now }
            else s) := by
        simp only [createOrUpdateStep, createOrUpdateSong]
        rw [if_neg h0, hh]
      rw [hdb, countPair_map_pres]
      · rw [if_neg (fun hc => hnz hc.2.1)]
        omega
      · intro s
        exact ⟨by split <;> rfl, by split <;> rfl⟩

theorem createOrUpdateStep_nextId (cid pid uid : String) (now : Nat)
    (acc : List SongDoc × Nat) (ti : TrackInfo) :
    (createOrUpdateStep cid pid uid now acc ti).2 =
      acc.2 +
        (if ti.track.spotify_track_id ≠ "" ∧
            countPair acc.1 cid ti.track.spotify_track_id = 0
         then 1 else 0) := by
  by_cases h0 : (ti.track.spotify_track_id == "") = true
  · have hstep : createOrUpdateStep cid pid uid now acc ti = acc := by
      simp only [createOrUpdateStep, createOrUpdateSong]
      rw [if_pos h0]
    rw [hstep, if_neg (fun hc => hc.1 (by simpa using h0))]
    omega
  · rcases hh : (acc.1.filter (fun s =>
        s.collection_id == cid &&
        s.spotify_track_id == ti.track.spotify_track_id)).head? with _ |
      sdoc
    · have hz : countPair acc.1 cid ti.track.spotify_track_id = 0 :=
        (filter_head?_none_iff_count_zero _ _ _).mp hh
      have hn : (createOrUpdateStep cid pid uid now acc ti).2 =
          acc.2 + 1 := by
        simp only [createOrUpdateStep, createOrUpdateSong]
        rw [if_neg h0, hh]
      rw [hn, if_pos ⟨by simpa using h0, hz⟩]
    · have hnz : countPair acc.1 cid ti.track.spotify_track_id ≠ 0 := by
        intro hz
        rw [← filter_head?_none_iff_count_zero] at hz
        rw [hh] at hz
        exact absurd hz (by simp)
      have hn : (createOrUpdateStep cid pid uid now acc ti).2 = acc.2 := by
        simp only [createOrUpdateStep, createOrUpdateSong]
        rw [if_neg h0, hh]
      rw [hn, if_neg (fun hc => hnz hc.2)]
      omega

theorem createOrUpdateLoop_count_mono (cid pid uid : String) (now : Nat)
    (tracks : List TrackInfo) :
    ∀ (acc : List SongDoc × Nat) (tid' : String),
      countPair acc.1 cid tid' ≤
        countPair (tracks.foldl (createOrUpdateStep cid pid uid now)
          acc).1 cid tid' := by
  induction tracks with
  | nil =>
    intro acc tid'
    exact Nat.le_refl _
  | cons t ts ih =>
    intro acc tid'
    rw [List.foldl_cons]
    refine Nat.le_trans ?_ (ih _ tid')
    rw [createOrUpdateStep_countPair]
    omega

theorem createOrUpdateLoop_le_one (cid pid uid : String) (now : Nat)
    (tracks : List TrackInfo) :
    ∀ (acc : List SongDoc × Nat),
      (∀ tid, countPair acc.1 cid tid ≤ 1) →
      ∀ tid, countPair (tracks.foldl (createOrUpdateStep cid pid uid now)
        acc).1 cid tid ≤ 1 := by
  induction tracks with
  | nil =>
    intro acc h tid
    exact h tid
  | cons t ts ih =>
    intro acc h tid
    rw [List.foldl_cons]
    refine ih _ ?_ tid
    intro tid'
    rw [createOrUpdateStep_countPair]
    have := h tid'
    split_ifs with hc
    · rcases hc with ⟨_, hz, heq⟩
      rw [heq]
      omega
    · omega

theorem createOrUpdateLoop_covers (cid pid uid : String) (now : Nat)
    (tracks : List TrackInfo) :
    ∀ (acc : List SongDoc × Nat), ∀ ti ∈ tracks,
      ti.track.spotify_track_id ≠ "" →
      1 ≤ countPair (tracks.foldl (createOrUpdateStep cid pid uid now)
        acc).1 cid ti.track.spotify_track_id := by
  induction tracks with
  | nil =>
    intro acc ti hmem
    exact absurd hmem (List.not_mem_nil ti)
  | cons t ts ih =>
    intro acc ti hmem hne
    rw [List.foldl_cons]
    rcases List.mem_cons.mp hmem with heq | hmem'
    · subst heq
      refine Nat.le_trans ?_ (createOrUpdateLoop_count_mono cid pid uid
        now ts _ _)
      rw [createOrUpdateStep_countPair]
      by_cases hz : countPair acc.1 cid ti.track.spotify_track_id = 0
      · rw [if_pos ⟨hne, hz, rfl⟩]
        omega
      · rw [if_neg (fun hc => hz hc.2.1)]
        omega
    · exact ih (createOrUpdateStep cid pid uid now acc t) ti hmem' hne

theorem createOrUpdateLoop_stable (cid pid uid : String) (now : Nat)
    (tracks : List TrackInfo) :
    ∀ (acc : List SongDoc × Nat),
      (∀ ti ∈ tracks, ti.track.spotify_track_id ≠ "" →
        1 ≤ countPair acc.1 cid ti.track.spotify_track_id) →
      (tracks.foldl (createOrUpdateStep cid pid uid now) acc).2 = acc.2 ∧
      ∀ tid', countPair (tracks.foldl (createOrUpdateStep cid pid uid now)
        acc).1 cid tid' = countPair acc.1 cid tid' := by
  induction tracks with
  | nil =>
    intro acc _
    exact ⟨rfl, fun _ => rfl⟩
  | cons t ts ih =>
    intro acc hge
    rw [List.foldl_cons]
    have hstep_count : ∀ tid',
        countPair (createOrUpdateStep cid pid uid now acc t).1 cid tid' =
          countPair acc.1 cid tid' := by
      intro tid'
      rw [createOrUpdateStep_countPair]
      have hno : ¬(t.track.spotify_track_id ≠ "" ∧
          countPair acc.1 cid t.track.spotify_track_id = 0 ∧
          tid' = t.track.spotify_track_id) := by
        rintro ⟨hne, hz, _⟩
        have := hge t (List.mem_cons_self t ts) hne
        omega
      rw [if_neg hno]
      omega
    have hstep_next : (createOrUpdateStep cid pid uid now acc t).2 =
        acc.2 := by
      rw [createOrUpdateStep_nextId]
      have hno : ¬(t.track.spotify_track_id ≠ "" ∧
          countPair acc.1 cid t.track.spotify_track_id = 0) := by
        rintro ⟨hne, hz⟩
        have := hge t (List.mem_cons_self t ts) hne
        omega
      rw [if_neg hno]
      omega
    have hrec := ih (createOrUpdateStep cid pid uid now acc t)
      (fun ti hti hne => by
        rw [hstep_count]
        exact hge ti (List.mem_cons_of_mem _ hti) hne)
    exact ⟨hrec.1.trans hstep_next,
      fun tid' => (hrec.2 tid').trans (hstep_count tid')⟩

/-- The duplicated track used by the C1 counterexample. -/
def wTrackT : TrackData :=
  { title := "Song"
    artist := "Artist"
    album := ""
    year := ""
    album_art_url := ""
    spotify_track_id := "T"
    spotify_uri := ""
    spotify_url := ""
    duration_ms := 0 }

/-- C1 (counterexample): importing a track list that contains the same
spotify track id twice creates two documents for the pair
(collection_id, spotify_track_id), and a second identical import leaves both
in place — the claim's "exactly one song document per pair" fails. -/
theorem import_duplicate_track_counterexample :
    countPair (batchCreateOrUpdateSongs
      (batchCreateOrUpdateSongs [] 0 "c" "p" [⟨wTrackT, 0⟩, ⟨wTrackT, 1⟩]
        "u" 0).db
      (batchCreateOrUpdateSongs [] 0 "c" "p" [⟨wTrackT, 0⟩, ⟨wTrackT, 1⟩]
        "u" 0).nextId
      "c" "p" [⟨wTrackT, 0⟩, ⟨wTrackT, 1⟩] "u" 1).db "c" "T" = 2 ∧
    ¬ countPair (batchCreateOrUpdateSongs
      (batchCreateOrUpdateSongs [] 0 "c" "p" [⟨wTrackT, 0⟩, ⟨wTrackT, 1⟩]
        "u" 0).db
      (batchCreateOrUpdateSongs [] 0 "c" "p" [⟨wTrackT, 0⟩, ⟨wTrackT, 1⟩]
        "u" 0).nextId
      "c" "p" [⟨wTrackT, 0⟩, ⟨wTrackT, 1⟩] "u" 1).db "c" "T" = 1 := by
  decide

/-- Helper for the batch clause of the amended C1 statement. -/
theorem batch_import_twice_single_doc (db0 : List SongDoc) (nextId : Nat)
    (cid pid : String) (tracks : List TrackInfo) (uid : String)
    (t1 t2 : Nat) (hnd : (trackIdsOf tracks).Nodup)
    (hinv : ∀ tid, countPair db0 cid tid ≤ 1) :
    (batchCreateOrUpdateSongs
      (batchCreateOrUpdateSongs db0 nextId cid pid tracks uid t1).db
      (batchCreateOrUpdateSongs db0 nextId cid pid tracks uid t1).nextId
      cid pid tracks uid t2).created = 0 ∧
    ∀ ti ∈ tracks, ti.track.spotify_track_id ≠ "" →
      countPair (batchCreateOrUpdateSongs
        (batchCreateOrUpdateSongs db0 nextId cid pid tracks uid t1).db
        (batchCreateOrUpdateSongs db0 nextId cid pid tracks uid t1).nextId
        cid pid tracks uid t2).db cid ti.track.spotify_track_id = 1 := by
  have hrun1 : ∀ tid',
      countPair (batchCreateOrUpdateSongs db0 nextId cid pid tracks uid
        t1).db cid tid' =
      countPair db0 cid tid' +
        (if tid' ∈ trackIdsOf tracks ∧
            dictHasKey (buildExisting db0 cid) tid' = false then 1 else 0) :=
    fun tid' => batchFold_countPair cid pid uid t1 tracks
      { db := db0, existing := buildExisting db0 cid, nextId := nextId,
        created := 0, updated := 0 } tid' hnd
  have hcount1 : ∀ ti ∈ tracks, ti.track.spotify_track_id ≠ "" →
      countPair (batchCreateOrUpdateSongs db0 nextId cid pid tracks uid
        t1).db cid ti.track.spotify_track_id = 1 := by
    intro ti hti hne
    have hmem : ti.track.spotify_track_id ∈ trackIdsOf tracks :=
      List.mem_filter.mpr
        ⟨List.mem_map_of_mem (fun x => x.track.spotify_track_id) hti,
         by simpa using hne⟩
    rw [hrun1]
    rcases Nat.eq_zero_or_pos
        (countPair db0 cid ti.track.spotify_track_id) with hz | hp
    · have hkf : dictHasKey (buildExisting db0 cid)
          ti.track.spotify_track_id = false := by
        rw [hasKey_buildExisting]
        rcases Bool.eq_false_or_eq_true (db0.any (fun s =>
          s.collection_id == cid &&
          s.spotify_track_id == ti.track.spotify_track_id)) with hb | hb
        · have := (countPair_pos_iff db0 cid
            ti.track.spotify_track_id).mpr hb
          omega
        · exact hb
      rw [if_pos ⟨hmem, hkf⟩, hz]
    · have h1 : countPair db0 cid ti.track.spotify_track_id = 1 :=
        Nat.le_antisymm (hinv ti.track.spotify_track_id) hp
      have hkt : dictHasKey (buildExisting db0 cid)
          ti.track.spotify_track_id = true := by
        rw [hasKey_buildExisting]
        exact (countPair_pos_iff db0 cid ti.track.spotify_track_id).mp hp
      have hno : ¬(ti.track.spotify_track_id ∈ trackIdsOf tracks ∧
          dictHasKey (buildExisting db0 cid)
            ti.track.spotify_track_id = false) := by
        rintro ⟨_, hk⟩
        rw [hkt] at hk
        exact absurd hk (by simp)
      rw [if_neg hno, h1]
  have hkeys2 : ∀ ti ∈ tracks, ti.track.spotify_track_id ≠ "" →
      dictHasKey (buildExisting
        (batchCreateOrUpdateSongs db0 nextId cid pid tracks uid t1).db cid)
        ti.track.spotify_track_id = true := by
    intro ti hti hne
    rw [hasKey_buildExisting]
    refine (countPair_pos_iff _ cid ti.track.spotify_track_id).mp ?_
    rw [hcount1 ti hti hne]
    omega
  have hrun2 := batchFold_created_of_keys cid pid uid t2 tracks
    { db := (batchCreateOrUpdateSongs db0 nextId cid pid tracks uid t1).db
      existing := buildExisting
        (batchCreateOrUpdateSongs db0 nextId cid pid tracks uid t1).db cid
      nextId := (batchCreateOrUpdateSongs db0 nextId cid pid tracks uid
        t1).nextId
      created := 0
      updated := 0 } hkeys2
  constructor
  · exact hrun2.1
  · intro ti hti hne
    rw [show countPair (batchCreateOrUpdateSongs
        (batchCreateOrUpdateSongs db0 nextId cid pid tracks uid t1).db
        (batchCreateOrUpdateSongs db0 nextId cid pid tracks uid t1).nextId
        cid pid tracks uid t2).db cid ti.track.spotify_track_id =
      countPair (batchCreateOrUpdateSongs db0 nextId cid pid tracks uid
        t1).db cid ti.track.spotify_track_id from
      hrun2.2 ti.track.spotify_track_id]
    exact hcount1 ti hti hne

/-- C1 (amended): over any database with at most one song per
(collection_id, spotify_track_id), importing the same playlist twice leaves
exactly one song document per (collection_id, spotify_track_id) pair of
the imported tracks and classifies every track of the second run as an
update, never a create — for `batch_create_or_update_songs` provided the
track list's non-empty spotify track ids are pairwise distinct (second run
`created = 0`), and for `create_or_update_song` called in a loop over any
track list, duplicates included (second run allocates no document ids). -/
theorem import_twice_single_doc :
    (∀ (db0 : List SongDoc) (nextId : Nat) (cid pid : String)
       (tracks : List TrackInfo) (uid : String) (t1 t2 : Nat),
       (trackIdsOf tracks).Nodup →
       (∀ tid, countPair db0 cid tid ≤ 1) →
       (batchCreateOrUpdateSongs
         (batchCreateOrUpdateSongs db0 nextId cid pid tracks uid t1).db
         (batchCreateOrUpdateSongs db0 nextId cid pid tracks uid t1).nextId
         cid pid tracks uid t2).created = 0 ∧
       ∀ ti ∈ tracks, ti.track.spotify_track_id ≠ "" →
         countPair (batchCreateOrUpdateSongs
           (batchCreateOrUpdateSongs db0 nextId cid pid tracks uid t1).db
           (batchCreateOrUpdateSongs db0 nextId cid pid tracks uid
             t1).nextId
           cid pid tracks uid t2).db cid ti.track.spotify_track_id = 1) ∧
    (∀ (db0 : List SongDoc) (nextId : Nat) (cid pid : String)
       (tracks : List TrackInfo) (uid : String) (t1 t2 : Nat),
       (∀ tid, countPair db0 cid tid ≤ 1) →
       (createOrUpdateLoop
         (createOrUpdateLoop db0 nextId cid pid tracks uid t1).1
         (createOrUpdateLoop db0 nextId cid pid tracks uid t1).2
         cid pid tracks uid t2).2 =
         (createOrUpdateLoop db0 nextId cid pid tracks uid t1).2 ∧
       ∀ ti ∈ tracks, ti.track.spotify_track_id ≠ "" →
         countPair (createOrUpdateLoop
           (createOrUpdateLoop db0 nextId cid pid tracks uid t1).1
           (createOrUpdateLoop db0 nextId cid pid tracks uid t1).2
           cid pid tracks uid t2).1 cid ti.track.spotify_track_id = 1) := by
  constructor
  · intro db0 nextId cid pid tracks uid t1 t2 hnd hinv
    exact batch_import_twice_single_doc db0 nextId cid pid tracks uid t1 t2
      hnd hinv
  · intro db0 nextId cid pid tracks uid t1 t2 hinv
    have hcov1 : ∀ ti ∈ tracks, ti.track.spotify_track_id ≠ "" →
        1 ≤ countPair (createOrUpdateLoop db0 nextId cid pid tracks uid
          t1).1 cid ti.track.spotify_track_id :=
      createOrUpdateLoop_covers cid pid uid t1 tracks (db0, nextId)
    have hle1 : ∀ tid, countPair (createOrUpdateLoop db0 nextId cid pid
        tracks uid t1).1 cid tid ≤ 1 :=
      createOrUpdateLoop_le_one cid pid uid t1 tracks (db0, nextId) hinv
    have hcount1 : ∀ ti ∈ tracks, ti.track.spotify_track_id ≠ "" →
        countPair (createOrUpdateLoop db0 nextId cid pid tracks uid t1).1
          cid ti.track.spotify_track_id = 1 :=
      fun ti hti hne =>
        Nat.le_antisymm (hle1 _) (hcov1 ti hti hne)
    have hstab := createOrUpdateLoop_stable cid pid uid t2 tracks
      (createOrUpdateLoop db0 nextId cid pid tracks uid t1)
      (fun ti hti hne => (hcount1 ti hti hne).ge)
    refine ⟨hstab.1, ?_⟩
    intro ti hti hne
    rw [show countPair (createOrUpdateLoop
        (createOrUpdateLoop db0 nextId cid pid tracks uid t1).1
        (createOrUpdateLoop db0 nextId cid pid tracks uid t1).2
        cid pid tracks uid t2).1 cid ti.track.spotify_track_id =
      countPair (createOrUpdateLoop db0 nextId cid pid tracks uid t1).1
        cid ti.track.spotify_track_id from
      hstab.2 ti.track.spotify_track_id]
    exact hcount1 ti hti hne

/-- Witness for C1 (amended): importing a one-track playlist twice through
the batch path leaves a single document for its (collection, track) pair
with a create count of zero on the second run; the per-song loop imports a
playlist containing the same track twice, allocates no document id on the
second run, and also leaves a single document for the pair. -/
theorem import_twice_single_doc_witness :
    ((trackIdsOf [⟨wTrackT, 0⟩]).Nodup ∧
     (batchCreateOrUpdateSongs
       (batchCreateOrUpdateSongs [] 0 "c" "p" [⟨wTrackT, 0⟩] "u" 0).db
       (batchCreateOrUpdateSongs [] 0 "c" "p" [⟨wTrackT, 0⟩] "u" 0).nextId
       "c" "p" [⟨wTrackT, 0⟩] "u" 1).created = 0 ∧
     countPair (batchCreateOrUpdateSongs
       (batchCreateOrUpdateSongs [] 0 "c" "p" [⟨wTrackT, 0⟩] "u" 0).db
       (batchCreateOrUpdateSongs [] 0 "c" "p" [⟨wTrackT, 0⟩] "u" 0).nextId
       "c" "p" [⟨wTrackT, 0⟩] "u" 1).db "c" "T" = 1) ∧
    ((createOrUpdateLoop
       (createOrUpdateLoop [] 0 "c" "p" [⟨wTrackT, 0⟩, ⟨wTrackT, 1⟩] "u"
         0).1
       (createOrUpdateLoop [] 0 "c" "p" [⟨wTrackT, 0⟩, ⟨wTrackT, 1⟩] "u"
         0).2
       "c" "p" [⟨wTrackT, 0⟩, ⟨wTrackT, 1⟩] "u" 1).2 =
       (createOrUpdateLoop [] 0 "c" "p" [⟨wTrackT, 0⟩, ⟨wTrackT, 1⟩] "u"
         0).2 ∧
     countPair (createOrUpdateLoop
       (createOrUpdateLoop [] 0 "c" "p" [⟨wTrackT, 0⟩, ⟨wTrackT, 1⟩] "u"
         0).1
       (createOrUpdateLoop [] 0 "c" "p" [⟨wTrackT, 0⟩, ⟨wTrackT, 1⟩] "u"
         0).2
       "c" "p" [⟨wTrackT, 0⟩, ⟨wTrackT, 1⟩] "u" 1).1 "c" "T" = 1) := by
  have hb := import_twice_single_doc.1 [] 0 "c" "p" [⟨wTrackT, 0⟩] "u" 0 1
    (by decide) (fun tid => by simp [countPair])
  have hl := import_twice_single_doc.2 [] 0 "c" "p"
    [⟨wTrackT, 0⟩, ⟨wTrackT, 1⟩] "u" 0 1 (fun tid => by simp [countPair])
  exact ⟨⟨by decide, hb.1, hb.2 ⟨wTrackT, 0⟩ (by decide) (by decide)⟩,
    hl.1, hl.2 ⟨wTrackT, 0⟩ (by decide) (by decide)⟩

end BandPractice
